import Mathlib

/-
  Verification of the EMS core of dbus-systemcalc-py (src/delegates/ems.py):
  the PhaseAwareFloat value carrier, the transactional SolarOverhead ledger,
  and the S2RMDelegate OMBC session logic, shallowly embedded over ℚ.
-/

deriving instance DecidableEq for Except

namespace Ems

/-- One-way AC to DC conversion efficiency, source constant AC_DC_EFFICIENCY = 0.925. -/
def AC_DC_EFFICIENCY : ℚ := 37 / 40

/-- System topology tag, source enum SystemType. -/
inductive SystemType
  | Unknown
  | GridConnected1Phase
  | GridConnected2PhaseSaldating
  | GridConnected3PhaseSaldating
  | GridConnected2PhaseIndividual
  | GridConnected3PhaseIndividual
  | ZeroFeedin1Phase
  | ZeroFeedin2Phase
  | ZeroFeedin3Phase
  | OffGrid1Phase
  | OffGrid2Phase
  | OffGrid3Phase
deriving DecidableEq, Repr

/-- Commodity tags used by the ledger, source CommodityQuantity:
ELECTRIC_POWER_L1/L2/L3 and ELECTRIC_POWER_3_PHASE_SYMMETRIC. -/
inductive Commodity
  | cl1
  | cl2
  | cl3
  | sym
deriving DecidableEq, Repr

/-- AC phase index, source by_phase indices 1, 2, 3. -/
inductive Phase
  | one
  | two
  | three
deriving DecidableEq, Repr

/-- Source class PhaseAwareFloat: a value carrier with components l1, l2, l3, dc. -/
structure PAF where
  l1 : ℚ := 0
  l2 : ℚ := 0
  l3 : ℚ := 0
  dc : ℚ := 0
deriving DecidableEq, Repr

/-- Source property PhaseAwareFloat.total = l1 + l2 + l3 + dc. -/
def PAF.total (p : PAF) : ℚ := p.l1 + p.l2 + p.l3 + p.dc

/-- Source by_phase read access for indices 1..3 (l1, l2, l3). -/
def PAF.getP (p : PAF) : Phase → ℚ
  | Phase.one => p.l1
  | Phase.two => p.l2
  | Phase.three => p.l3

/-- Source by_phase write access for indices 1..3 (l1, l2, l3). -/
def PAF.setP (p : PAF) : Phase → ℚ → PAF
  | Phase.one, v => { p with l1 := v }
  | Phase.two, v => { p with l2 := v }
  | Phase.three, v => { p with l3 := v }

/-- Source operator PhaseAwareFloat.__add__, component-wise. -/
instance : Add PAF :=
  ⟨fun a b => ⟨a.l1 + b.l1, a.l2 + b.l2, a.l3 + b.l3, a.dc + b.dc⟩⟩

/-- Source operator PhaseAwareFloat.__sub__, component-wise. -/
instance : Sub PAF :=
  ⟨fun a b => ⟨a.l1 - b.l1, a.l2 - b.l2, a.l3 - b.l3, a.dc - b.dc⟩⟩

/-- Sum of the three AC components, used in ledger accounting lemmas. -/
def PAF.acSum (p : PAF) : ℚ := p.l1 + p.l2 + p.l3

/--
Source class SolarOverhead: the per-tick transactional surplus ledger.
Python represents "no open transaction" by setting _prior_power and
power_claim to None together with transaction_running = False; here the
two PAF fields keep their last value and are meaningful only while
transaction_running = true (they are never read otherwise, exactly as in
the source where reading them while None would raise).
The source reads the topology from self._delegate.system_type; it is
carried here as a field snapshotted at construction.
-/
structure SolarOverhead where
  power : PAF
  inverterPower : PAF
  power_reserved : PAF
  prior_power : PAF := {}
  power_claim : PAF := {}
  power_request : Option PAF := none
  battery_rate : ℚ
  battery_reservation : ℚ
  system_type : SystemType
  transaction_running : Bool := false
deriving DecidableEq, Repr

/-- One step of the constructor's reservation loop `for l in [3,2,1]`:
with `r` watts of reservation still uncovered, either part of phase `p`
covers it (discounted by AC_DC_EFFICIENCY) or all of phase `p` is reserved. -/
def reserveStep (pw : PAF) (st : PAF × ℚ) (p : Phase) : PAF × ℚ :=
  let (reserved, r) := st
  if r > 0 then
    if r ≤ pw.getP p * AC_DC_EFFICIENCY then
      (reserved.setP p (r / AC_DC_EFFICIENCY), 0)
    else
      (reserved.setP p (pw.getP p), r - pw.getP p * AC_DC_EFFICIENCY)
  else
    st

/-- Source SolarOverhead.__init__: stores the surplus and, when the battery
reservation is positive, fills power_reserved first from DC up to its
balance, then from phases L3, L2, L1 discounted by AC_DC_EFFICIENCY.
The `power` field itself is left at the raw inputs. -/
def mkSolarOverhead (l1 l2 l3 dcpv reservation battery_rate ip1 ip2 ip3 : ℚ)
    (st : SystemType) : SolarOverhead :=
  let power : PAF := ⟨l1, l2, l3, dcpv⟩
  let reserved : PAF :=
    if reservation > 0 then
      if reservation ≤ power.dc then
        { dc := reservation }
      else
        (([Phase.three, Phase.two, Phase.one].foldl (reserveStep power)
          (({ dc := power.dc } : PAF), reservation - power.dc))).1
    else
      {}
  { power := power
    inverterPower := ⟨ip1, ip2, ip3, 0⟩
    power_reserved := reserved
    battery_rate := battery_rate
    battery_reservation := reservation
    system_type := st
    transaction_running := false }

/-- Source SolarOverhead.begin body (after the transaction-running check):
snapshot the surplus and open the transaction with an empty claim. -/
def SolarOverhead.beginCore (s : SolarOverhead) : SolarOverhead :=
  { s with prior_power := s.power, power_claim := {}, transaction_running := true }

/-- Source SolarOverhead.begin: raises when a transaction is already open. -/
def SolarOverhead.begin (s : SolarOverhead) : Except String SolarOverhead :=
  if s.transaction_running then
    Except.error "Solar Claim Transaction currently running"
  else
    Except.ok s.beginCore

/-- State threaded through the claim cascade: the remaining claim target,
the ledger's surplus (self.power) and the accumulated claim (self.power_claim). -/
structure CascadeState where
  t : PAF
  pw : PAF
  pc : PAF
deriving DecidableEq, Repr

/-- Source _try_claim_ac loop body for one phase: drain the matching phase's
AC surplus; note the claim component is assigned, not incremented. -/
def acStep (p : Phase) (cs : CascadeState) : CascadeState :=
  if cs.t.getP p > 0 then
    let claimed := if cs.t.getP p ≤ cs.pw.getP p then cs.t.getP p else max (cs.pw.getP p) 0
    { t := cs.t.setP p (cs.t.getP p - claimed)
      pw := cs.pw.setP p (cs.pw.getP p - claimed)
      pc := cs.pc.setP p claimed }
  else
    cs

/-- Source SolarOverhead._try_claim_ac: direct AC claim over phases 1, 2, 3. -/
def tryClaimAc (cs : CascadeState) : CascadeState :=
  acStep Phase.three (acStep Phase.two (acStep Phase.one cs))

/-- Source _try_claim_dc loop body for one phase: drain the DC balance.
In the saturating branch the claim's dc component is incremented, in the
not-enough branch it is assigned (overwriting earlier increments), exactly
as in the source. -/
def dcStep (p : Phase) (cs : CascadeState) : CascadeState :=
  if cs.t.getP p > 0 then
    if cs.t.getP p ≤ cs.pw.dc then
      let claimed := cs.t.getP p
      { t := cs.t.setP p (cs.t.getP p - claimed)
        pw := { cs.pw with dc := cs.pw.dc - claimed }
        pc := { cs.pc with dc := cs.pc.dc + claimed } }
    else
      let claimed := max cs.pw.dc 0
      { t := cs.t.setP p (cs.t.getP p - claimed)
        pw := { cs.pw with dc := cs.pw.dc - claimed }
        pc := { cs.pc with dc := claimed } }
  else
    cs

/-- Source SolarOverhead._try_claim_dc: DC claim over phases 1, 2, 3. -/
def tryClaimDc (cs : CascadeState) : CascadeState :=
  dcStep Phase.three (dcStep Phase.two (dcStep Phase.one cs))

/-- Source _try_claim_acdcac inner loop body: route power for the demand on
phase `l` from the donor phase `o`; 1 W delivered costs 1/penalty W drawn. -/
def donorStep (l o : Phase) (pen : ℚ) (cs : CascadeState) : CascadeState :=
  if cs.pw.getP o ≥ cs.t.getP l / pen then
    let effective := cs.t.getP l
    let totalClaim := cs.t.getP l / pen
    { t := cs.t.setP l (cs.t.getP l - effective)
      pw := cs.pw.setP o (cs.pw.getP o - totalClaim)
      pc := cs.pc.setP o (cs.pc.getP o + totalClaim) }
  else
    let effective := cs.pw.getP o * pen
    let totalClaim := cs.pw.getP o
    { t := cs.t.setP l (cs.t.getP l - effective)
      pw := cs.pw.setP o (cs.pw.getP o - totalClaim)
      pc := cs.pc.setP o (cs.pc.getP o + totalClaim) }

/-- The two donor phases for a demand phase, in the source's `for o in [1,2,3] if o != l` order. -/
def donors : Phase → Phase × Phase
  | Phase.one => (Phase.two, Phase.three)
  | Phase.two => (Phase.one, Phase.three)
  | Phase.three => (Phase.one, Phase.two)

/-- Source _try_claim_acdcac outer loop body for one demand phase: the
`claim_target.by_phase[l] > 0` guard is checked once, then both donors run. -/
def acdcacPhase (l : Phase) (pen : ℚ) (cs : CascadeState) : CascadeState :=
  if cs.t.getP l > 0 then
    donorStep l (donors l).2 pen (donorStep l (donors l).1 pen cs)
  else
    cs

/-- Source SolarOverhead._try_claim_acdcac: cross-phase routing with an
efficiency penalty, over demand phases 1, 2, 3. -/
def tryClaimAcdcac (pen : ℚ) (cs : CascadeState) : CascadeState :=
  acdcacPhase Phase.three pen (acdcacPhase Phase.two pen (acdcacPhase Phase.one pen cs))

/-- Claim target split onto phases, source lines building `claim_target`:
3-phase-symmetric puts max/3 on each phase, a per-phase commodity puts max
on that phase only. -/
def splitTarget (cq : Commodity) (maxv : ℚ) : PAF :=
  match cq with
  | Commodity.sym => ⟨maxv / 3, maxv / 3, maxv / 3, 0⟩
  | Commodity.cl1 => { l1 := maxv }
  | Commodity.cl2 => { l2 := maxv }
  | Commodity.cl3 => { l3 := maxv }

/-- Source SolarOverhead.claim lines choosing the second and third cascade
stage: a saldating topology tries ACDCAC with penalty 1.0 before DC, any
other topology tries DC before ACDCAC with penalty AC_DC_EFFICIENCY ** 2. -/
def claimCascade (st : SystemType) (cs1 : CascadeState) : CascadeState :=
  if cs1.t.total > 0 then
    if st = SystemType.GridConnected2PhaseSaldating ∨
       st = SystemType.GridConnected3PhaseSaldating then
      let csa := tryClaimAcdcac 1 cs1
      if csa.t.total > 0 then tryClaimDc csa else csa
    else
      let csd := tryClaimDc cs1
      if csd.t.total > 0 then tryClaimAcdcac (AC_DC_EFFICIENCY ^ 2) csd else csd
  else
    cs1

/-- Source SolarOverhead.claim body (after the transaction-running check).
The local `power_factor` is computed and never used in the source and is
omitted. Note that `power_request` is overwritten before the cascade runs,
and that a claim returning false leaves all cascade mutations in place. -/
def SolarOverhead.claimCore (s : SolarOverhead) (cq : Commodity) (_minv maxv : ℚ)
    (primary force : Bool) : Bool × SolarOverhead :=
  let target := splitTarget cq maxv
  let s := { s with power_request := some ⟨target.l1, target.l2, target.l3, 0⟩ }
  let cs1 := tryClaimAc ⟨target, s.power, s.power_claim⟩
  let cs2 := claimCascade s.system_type cs1
  if cs2.t.total > 0 ∧ force = false then
    (false, { s with power := cs2.pw, power_claim := cs2.pc })
  else
    let cs3 :=
      if cs2.t.total > 0 then
        { cs2 with pw := { cs2.pw with dc := cs2.pw.dc - cs2.t.total }
                   pc := { cs2.pc with dc := cs2.pc.dc + cs2.t.total } }
      else
        cs2
    let s := { s with power := cs3.pw, power_claim := cs3.pc }
    if s.power.total < s.battery_reservation ∧ primary = false ∧ force = false then
      (false, s)
    else if force = false ∧ primary = true ∧ ¬ s.power.total > 50 then
      (false, s)
    else
      (true, s)

/-- Source SolarOverhead.claim: raises when no transaction is open. -/
def SolarOverhead.claim (s : SolarOverhead) (cq : Commodity) (minv maxv : ℚ)
    (primary : Bool) (force : Bool := false) : Except String (Bool × SolarOverhead) :=
  if s.transaction_running then
    Except.ok (s.claimCore cq minv maxv primary force)
  else
    Except.error "No Solar Claim Transaction currently running"

/-- Source SolarOverhead.rollback body: restore the surplus from the snapshot
and close the transaction. power_request is deliberately not restored. -/
def SolarOverhead.rollbackCore (s : SolarOverhead) : SolarOverhead :=
  { s with power := s.prior_power, transaction_running := false }

/-- Source SolarOverhead.rollback: raises when no transaction is open. -/
def SolarOverhead.rollback (s : SolarOverhead) : Except String SolarOverhead :=
  if s.transaction_running then
    Except.ok s.rollbackCore
  else
    Except.error "No Solar Claim Transaction currently running"

/-- Source SolarOverhead.comit body: close the transaction and return the
accumulated claim. -/
def SolarOverhead.comitCore (s : SolarOverhead) : PAF × SolarOverhead :=
  (s.power_claim, { s with transaction_running := false })

/-- Source SolarOverhead.comit: raises when no transaction is open. -/
def SolarOverhead.comit (s : SolarOverhead) : Except String (PAF × SolarOverhead) :=
  if s.transaction_running then
    Except.ok s.comitCore
  else
    Except.error "No Solar Claim Transaction currently running"

/-- Arguments of one SolarOverhead.claim call. -/
structure ClaimArgs where
  cq : Commodity
  minv : ℚ
  maxv : ℚ
  primary : Bool
  force : Bool
deriving DecidableEq, Repr

/-- Run a sequence of claim calls inside an open transaction, discarding the
boolean results (the ledger is mutated either way, as in the source). -/
def runClaimsE (s : SolarOverhead) : List ClaimArgs → Except String SolarOverhead
  | [] => Except.ok s
  | a :: as => do
    let (_, s') ← s.claim a.cq a.minv a.maxv a.primary a.force
    runClaimsE s' as

/-- The begin(); claim()*; rollback() pipeline of C3. -/
def runRollback (s : SolarOverhead) (cs : List ClaimArgs) : Except String SolarOverhead := do
  let s1 ← s.begin
  let s2 ← runClaimsE s1 cs
  s2.rollback

/-- The begin(); claim()*; commit() pipeline of C2. -/
def runCommit (s : SolarOverhead) (cs : List ClaimArgs) :
    Except String (PAF × SolarOverhead) := do
  let s1 ← s.begin
  let s2 ← runClaimsE s1 cs
  s2.comit

theorem claimCore_preserves (s : SolarOverhead) (cq : Commodity) (minv maxv : ℚ)
    (primary force : Bool) :
    ((s.claimCore cq minv maxv primary force).2.transaction_running = s.transaction_running) ∧
    ((s.claimCore cq minv maxv primary force).2.prior_power = s.prior_power) ∧
    ((s.claimCore cq minv maxv primary force).2.battery_reservation = s.battery_reservation) ∧
    ((s.claimCore cq minv maxv primary force).2.system_type = s.system_type) := by
  unfold SolarOverhead.claimCore
  dsimp only
  split_ifs <;> simp

theorem claimCore_power_request (s : SolarOverhead) (cq : Commodity) (minv maxv : ℚ)
    (primary force : Bool) :
    (s.claimCore cq minv maxv primary force).2.power_request =
      some ⟨(splitTarget cq maxv).l1, (splitTarget cq maxv).l2, (splitTarget cq maxv).l3, 0⟩ := by
  unfold SolarOverhead.claimCore
  dsimp only
  split_ifs <;> rfl

theorem exceptBind_ok {α β ε : Type} (x : α) (f : α → Except ε β) :
    (Except.ok x >>= f) = f x := rfl

theorem runClaimsE_ok (cs : List ClaimArgs) :
    ∀ s : SolarOverhead, s.transaction_running = true →
      ∃ s', runClaimsE s cs = Except.ok s' ∧ s'.transaction_running = true ∧
        s'.prior_power = s.prior_power := by
  induction cs with
  | nil => exact fun s h => ⟨s, rfl, h, rfl⟩
  | cons a as ih =>
    intro s h
    have hc := claimCore_preserves s a.cq a.minv a.maxv a.primary a.force
    obtain ⟨s', h1, h2, h3⟩ := ih _ (hc.1.trans h)
    refine ⟨s', ?_, h2, h3.trans hc.2.1⟩
    simp [runClaimsE, SolarOverhead.claim, h, h1, exceptBind_ok]

/-- C3: for every begin(); claim()*; rollback() sequence on the ledger,
regardless of how many claims were made, whether they succeeded, or whether
they used force, rollback restores each of the four surplus components
(l1, l2, l3, dc) to exactly its value immediately before begin(). -/
theorem rollback_restores_power (s : SolarOverhead) (cs : List ClaimArgs)
    (s₂ : SolarOverhead) (htr : s.transaction_running = false)
    (hrun : runRollback s cs = Except.ok s₂) :
    s₂.power.l1 = s.power.l1 ∧ s₂.power.l2 = s.power.l2 ∧
    s₂.power.l3 = s.power.l3 ∧ s₂.power.dc = s.power.dc := by
  obtain ⟨s', h1, h2, h3⟩ := runClaimsE_ok cs s.beginCore rfl
  have : runRollback s cs = Except.ok s'.rollbackCore := by
    simp [runRollback, SolarOverhead.begin, htr, h1, SolarOverhead.rollback, h2, exceptBind_ok]
  rw [this] at hrun
  cases hrun
  simp [SolarOverhead.rollbackCore, h3, SolarOverhead.beginCore]

/-- Concrete ledger for the C3 witness. -/
def c3s : SolarOverhead :=
  mkSolarOverhead 100 0 0 50 0 0 4000 4000 4000 SystemType.GridConnected1Phase

/-- Concrete claim sequence for the C3 witness: one successful and one failed
forced-free claim. -/
def c3cs : List ClaimArgs :=
  [⟨Commodity.cl1, 0, 80, false, false⟩, ⟨Commodity.cl2, 0, 500, false, true⟩]

/-- Concrete output state of the C3 witness pipeline. -/
def c3out : SolarOverhead :=
  (runRollback c3s c3cs).toOption.getD c3s

unseal Rat.add Rat.sub Rat.mul Rat.inv in
theorem rollback_restores_power_witness :
    c3s.transaction_running = false ∧
    runRollback c3s c3cs = Except.ok c3out ∧
    (c3out.power.l1 = c3s.power.l1 ∧ c3out.power.l2 = c3s.power.l2 ∧
     c3out.power.l3 = c3s.power.l3 ∧ c3out.power.dc = c3s.power.dc) :=
  ⟨rfl, by decide, rollback_restores_power c3s c3cs c3out rfl (by decide)⟩

/-- C10: every claim call, including one that returns false, overwrites the
ledger's power_request with the AC phase split of the claim's target, and a
subsequent rollback restores the surplus to its pre-begin snapshot but does
not restore power_request, which still reflects the failed attempt. -/
theorem claim_sets_power_request_rollback_keeps_it (s : SolarOverhead)
    (cq : Commodity) (minv maxv : ℚ) (primary force : Bool) (b : Bool)
    (s₁ s₂ : SolarOverhead) (htr : s.transaction_running = true)
    (hclaim : s.claim cq minv maxv primary force = Except.ok (b, s₁))
    (hrb : s₁.rollback = Except.ok s₂) :
    s₂.power_request =
      some ⟨(splitTarget cq maxv).l1, (splitTarget cq maxv).l2, (splitTarget cq maxv).l3, 0⟩ ∧
    s₂.power = s.prior_power := by
  have hc : s.claim cq minv maxv primary force = Except.ok (s.claimCore cq minv maxv primary force) := by
    simp [SolarOverhead.claim, htr]
  rw [hc] at hclaim
  have hpres := claimCore_preserves s cq minv maxv primary force
  have hpr := claimCore_power_request s cq minv maxv primary force
  have hpair : s.claimCore cq minv maxv primary force = (b, s₁) := by
    injection hclaim
  have hs₁ : s₁ = (s.claimCore cq minv maxv primary force).2 := by
    rw [hpair]
  subst hs₁
  have htr₁ : (s.claimCore cq minv maxv primary force).2.transaction_running = true :=
    hpres.1.trans htr
  rw [SolarOverhead.rollback, if_pos htr₁] at hrb
  cases hrb
  exact ⟨hpr, hpres.2.1⟩

/-- Concrete open ledger for the C10 witness: surplus too small, pending
transaction open, prior snapshot recorded. -/
def c10s : SolarOverhead :=
  (mkSolarOverhead 30 0 0 0 0 0 4000 4000 4000 SystemType.GridConnected1Phase).beginCore

/-- Concrete result of the failing claim in the C10 witness. -/
def c10r : Bool × SolarOverhead :=
  (c10s.claim Commodity.cl1 0 400 false false).toOption.getD (false, c10s)

/-- Concrete rolled-back state of the C10 witness. -/
def c10out : SolarOverhead :=
  (c10r.2.rollback).toOption.getD c10s

unseal Rat.add Rat.sub Rat.mul Rat.inv in
theorem claim_sets_power_request_rollback_keeps_it_witness :
    c10s.transaction_running = true ∧
    c10s.claim Commodity.cl1 0 400 false false = Except.ok (false, c10r.2) ∧
    c10r.2.rollback = Except.ok c10out ∧
    (c10out.power_request =
      some ⟨(splitTarget Commodity.cl1 400).l1, (splitTarget Commodity.cl1 400).l2,
            (splitTarget Commodity.cl1 400).l3, 0⟩ ∧
     c10out.power = c10s.prior_power) :=
  ⟨rfl, by decide, by decide,
    claim_sets_power_request_rollback_keeps_it c10s Commodity.cl1 0 400 false false
      false c10r.2 c10out rfl (by decide) (by decide)⟩

theorem splitTarget_zero (cq : Commodity) : splitTarget cq 0 = ({} : PAF) := by
  cases cq <;> simp [splitTarget]

/-- Concrete open ledger for the C7 counterexample: zero surplus and a
100 W battery reservation, transaction open. -/
def c7s : SolarOverhead :=
  (mkSolarOverhead 0 0 0 0 100 0 4000 4000 4000 SystemType.GridConnected1Phase).beginCore

unseal Rat.add Rat.sub Rat.mul Rat.inv in
/-- C7 counterexample: a claim with max = 0 by an unforced non-primary
consumer on an open ledger whose surplus total is below the battery
reservation returns false, refuting the claim that a zero-max claim always
returns true. -/
theorem claim_zero_max_can_return_false :
    c7s.transaction_running = true ∧
    (c7s.claim Commodity.cl1 0 0 false false).map Prod.fst = Except.ok false :=
  ⟨rfl, by decide⟩

theorem claimCore_zero_max (s : SolarOverhead) (cq : Commodity) (minv : ℚ)
    (primary : Bool) :
    (s.claimCore cq minv 0 primary false).2.power = s.power ∧
    (s.claimCore cq minv 0 primary false).2.power_claim = s.power_claim ∧
    ((s.claimCore cq minv 0 primary false).1 = false ↔
      ((s.power.total < s.battery_reservation ∧ primary = false) ∨
       (primary = true ∧ ¬ s.power.total > 50))) := by
  unfold SolarOverhead.claimCore claimCascade
  rw [splitTarget_zero]
  norm_num [tryClaimAc, acStep, PAF.getP, PAF.total]
  split_ifs <;> simp_all

/-- C7 (amended): a claim with max = 0 and force = false leaves the remaining
surplus and the accumulated claim unchanged, and returns true unless one of
the post-cascade reservation gates rejects it: surplus total below the
reservation for a non-primary consumer, or surplus total not above 50 W for
a primary consumer. -/
theorem claim_zero_max_no_mutation (s : SolarOverhead) (cq : Commodity) (minv : ℚ)
    (primary : Bool) (b : Bool) (s' : SolarOverhead)
    (htr : s.transaction_running = true)
    (h : s.claim cq minv 0 primary false = Except.ok (b, s')) :
    s'.power = s.power ∧ s'.power_claim = s.power_claim ∧
    (b = false ↔ ((s.power.total < s.battery_reservation ∧ primary = false) ∨
                  (primary = true ∧ ¬ s.power.total > 50))) := by
  have hc : s.claim cq minv 0 primary false = Except.ok (s.claimCore cq minv 0 primary false) := by
    simp [SolarOverhead.claim, htr]
  rw [hc] at h
  have hpair : s.claimCore cq minv 0 primary false = (b, s') := by injection h
  have hl := claimCore_zero_max s cq minv primary
  rw [hpair] at hl
  simpa using hl

/-- Concrete rejected zero-max claim result for the C7 witness. -/
def c7r : Bool × SolarOverhead :=
  (c7s.claim Commodity.cl1 0 0 false false).toOption.getD (true, c7s)

unseal Rat.add Rat.sub Rat.mul Rat.inv in
theorem claim_zero_max_no_mutation_witness :
    c7s.transaction_running = true ∧
    c7s.claim Commodity.cl1 0 0 false false = Except.ok (c7r.1, c7r.2) ∧
    (c7r.2.power = c7s.power ∧ c7r.2.power_claim = c7s.power_claim ∧
     (c7r.1 = false ↔ ((c7s.power.total < c7s.battery_reservation ∧ (false : Bool) = false) ∨
                       ((false : Bool) = true ∧ ¬ c7s.power.total > 50)))) := by
  refine ⟨rfl, by decide, ?_⟩
  exact claim_zero_max_no_mutation c7s Commodity.cl1 0 false c7r.1 c7r.2 rfl (by decide)

/-- Reservation consumption order written out from the spec sentence for
comparison with the constructor: first DC up to its balance, then phases
L3, L2, L1 in that order, each phase's contribution discounted by
AC_DC_EFFICIENCY. -/
def specOrderReserved (l1 l2 l3 dc r : ℚ) : PAF :=
  if r ≤ dc then { dc := r }
  else
    let r3 := r - dc
    if r3 ≤ l3 * AC_DC_EFFICIENCY then { l3 := r3 / AC_DC_EFFICIENCY, dc := dc }
    else
      let r2 := r3 - l3 * AC_DC_EFFICIENCY
      if r2 ≤ l2 * AC_DC_EFFICIENCY then
        { l2 := r2 / AC_DC_EFFICIENCY, l3 := l3, dc := dc }
      else
        let r1 := r2 - l2 * AC_DC_EFFICIENCY
        if r1 ≤ l1 * AC_DC_EFFICIENCY then
          { l1 := r1 / AC_DC_EFFICIENCY, l2 := l2, l3 := l3, dc := dc }
        else
          { l1 := l1, l2 := l2, l3 := l3, dc := dc }

/-- Concrete ledger for the C6 counterexample: 500 W DC surplus, 300 W
battery reservation. -/
def c6s : SolarOverhead :=
  mkSolarOverhead 0 0 0 500 300 0 4000 4000 4000 SystemType.GridConnected1Phase

unseal Rat.add Rat.sub Rat.mul Rat.inv in
/-- C6 counterexample: at construction with reservation 300 W and DC surplus
500 W, the remaining surplus stays at the full 500 W instead of being
reduced to 200 W by the consumed reservation, and a subsequent primary claim
of 400 W succeeds and drains the surplus below the reservation, showing the
reservation was not pre-consumed off the surplus available to claims. -/
theorem reservation_not_deducted_counterexample :
    c6s.battery_reservation = 300 ∧ c6s.power_reserved.dc = 300 ∧
    c6s.power.total = 500 ∧ ¬ c6s.power.total = 500 - 300 ∧
    ((c6s.beginCore.claimCore Commodity.cl1 0 400 true false).1 = true ∧
     (c6s.beginCore.claimCore Commodity.cl1 0 400 true false).2.power.dc = 100) := by
  decide

/-- C6 (amended): at construction with a positive battery reservation, the
reservation is pre-computed into the separate power_reserved field in the
order DC up to its balance, then phases L3, L2, L1 discounted by
AC_DC_EFFICIENCY, but the remaining surplus `power` is left at the raw
inputs and is not reduced; the reservation is instead enforced by the
post-cascade gate inside claim(). -/
theorem reservation_precomputed_not_deducted (l1 l2 l3 dcpv r br ip1 ip2 ip3 : ℚ)
    (st : SystemType) (hr : r > 0) :
    (mkSolarOverhead l1 l2 l3 dcpv r br ip1 ip2 ip3 st).power = ⟨l1, l2, l3, dcpv⟩ ∧
    (mkSolarOverhead l1 l2 l3 dcpv r br ip1 ip2 ip3 st).power_reserved =
      specOrderReserved l1 l2 l3 dcpv r := by
  refine ⟨rfl, ?_⟩
  unfold mkSolarOverhead specOrderReserved
  simp only [hr, if_true, List.foldl]
  by_cases h1 : r ≤ dcpv
  · simp [h1]
  · simp only [h1, if_false]
    have h3 : r - dcpv > 0 := by simp at h1; linarith
    by_cases hL3 : r - dcpv ≤ l3 * AC_DC_EFFICIENCY
    · simp [reserveStep, h3, hL3, PAF.getP, PAF.setP]
    · have h2 : r - dcpv - l3 * AC_DC_EFFICIENCY > 0 := by simp at hL3; linarith
      by_cases hL2 : r - dcpv - l3 * AC_DC_EFFICIENCY ≤ l2 * AC_DC_EFFICIENCY
      · simp [reserveStep, h3, hL3, h2, hL2, PAF.getP, PAF.setP]
      · have h0 : r - dcpv - l3 * AC_DC_EFFICIENCY - l2 * AC_DC_EFFICIENCY > 0 := by
          simp at hL2; linarith
        by_cases hL1 : r - dcpv - l3 * AC_DC_EFFICIENCY - l2 * AC_DC_EFFICIENCY ≤
            l1 * AC_DC_EFFICIENCY
        · simp [reserveStep, h3, hL3, h2, hL2, h0, hL1, PAF.getP, PAF.setP]
        · simp [reserveStep, h3, hL3, h2, hL2, h0, hL1, PAF.getP, PAF.setP]

unseal Rat.add Rat.sub Rat.mul Rat.inv in
theorem reservation_precomputed_not_deducted_witness :
    (40:ℚ) > 0 ∧
    ((mkSolarOverhead 10 20 30 5 40 0 4000 4000 4000
        SystemType.GridConnected1Phase).power = ⟨10, 20, 30, 5⟩ ∧
     (mkSolarOverhead 10 20 30 5 40 0 4000 4000 4000
        SystemType.GridConnected1Phase).power_reserved =
       specOrderReserved 10 20 30 5 40) :=
  ⟨by norm_num,
   reservation_precomputed_not_deducted 10 20 30 5 40 0 4000 4000 4000
     SystemType.GridConnected1Phase (by norm_num)⟩

theorem getP_setP_self (x : PAF) (p : Phase) (v : ℚ) : (x.setP p v).getP p = v := by
  cases p <;> rfl

theorem getP_setP_ne {x : PAF} {p q : Phase} (h : q ≠ p) {v : ℚ} :
    (x.setP p v).getP q = x.getP q := by
  cases p <;> cases q <;> first | rfl | exact absurd rfl h

theorem setP_dc (x : PAF) (p : Phase) (v : ℚ) : (x.setP p v).dc = x.dc := by
  cases p <;> rfl

theorem setP_total (x : PAF) (p : Phase) (v : ℚ) :
    (x.setP p v).total = x.total - x.getP p + v := by
  cases p <;> (simp only [PAF.total, PAF.setP, PAF.getP]; ring)

theorem getP_update_dc (x : PAF) (q : Phase) (v : ℚ) :
    ({ x with dc := v } : PAF).getP q = x.getP q := by
  cases q <;> rfl

theorem total_update_dc (x : PAF) (v : ℚ) :
    ({ x with dc := v } : PAF).total = x.total - x.dc + v := by
  simp only [PAF.total]; ring

/-- Invariant carried through the claim cascade: nonnegative per-phase
demand with zero DC demand, nonnegative AC surplus, nonnegative accumulated
claim. The surplus DC balance is deliberately not constrained, since forced
claims may drive it negative. -/
def CInv (X : CascadeState) : Prop :=
  (∀ p, 0 ≤ X.t.getP p) ∧ X.t.dc = 0 ∧ (∀ p, 0 ≤ X.pw.getP p) ∧
  (∀ p, 0 ≤ X.pc.getP p) ∧ 0 ≤ X.pc.dc

theorem acStep_ok (p : Phase) (X : CascadeState) (h : CInv X) :
    CInv (acStep p X) ∧
    (acStep p X).pc.total - X.pc.total ≤ X.pw.total - (acStep p X).pw.total ∧
    (acStep p X).pw.dc = X.pw.dc := by
  obtain ⟨ht, htd, hw, hc, hcd⟩ := h
  unfold acStep
  split_ifs with hg hb
  all_goals try dsimp only
  · refine ⟨⟨?_, ?_, ?_, ?_, ?_⟩, ?_, ?_⟩
    · intro q
      by_cases hq : q = p
      · rw [hq, getP_setP_self]; linarith
      · rw [getP_setP_ne hq]; exact ht q
    · rw [setP_dc]; exact htd
    · intro q
      by_cases hq : q = p
      · rw [hq, getP_setP_self]; linarith
      · rw [getP_setP_ne hq]; exact hw q
    · intro q
      by_cases hq : q = p
      · rw [hq, getP_setP_self]; exact ht p
      · rw [getP_setP_ne hq]; exact hc q
    · rw [setP_dc]; exact hcd
    · rw [setP_total, setP_total]
      have := hc p
      linarith
    · rw [setP_dc]
  · rw [max_eq_left (hw p)]
    refine ⟨⟨?_, ?_, ?_, ?_, ?_⟩, ?_, ?_⟩
    · intro q
      by_cases hq : q = p
      · rw [hq, getP_setP_self]; have := ht p; have := hw p; linarith
      · rw [getP_setP_ne hq]; exact ht q
    · rw [setP_dc]; exact htd
    · intro q
      by_cases hq : q = p
      · rw [hq, getP_setP_self]; linarith
      · rw [getP_setP_ne hq]; exact hw q
    · intro q
      by_cases hq : q = p
      · rw [hq, getP_setP_self]; exact hw p
      · rw [getP_setP_ne hq]; exact hc q
    · rw [setP_dc]; exact hcd
    · rw [setP_total, setP_total]
      have := hc p
      linarith
    · rw [setP_dc]
  · exact ⟨⟨ht, htd, hw, hc, hcd⟩, by linarith, rfl⟩

theorem dcStep_ok (p : Phase) (X : CascadeState) (h : CInv X) :
    CInv (dcStep p X) ∧
    (dcStep p X).pc.total - X.pc.total ≤ X.pw.total - (dcStep p X).pw.total ∧
    (0 ≤ X.pw.dc → 0 ≤ (dcStep p X).pw.dc) ∧
    (∀ q, (dcStep p X).pw.getP q = X.pw.getP q) := by
  obtain ⟨ht, htd, hw, hc, hcd⟩ := h
  unfold dcStep
  split_ifs with hg hb
  all_goals try dsimp only
  · refine ⟨⟨?_, ?_, ?_, ?_, ?_⟩, ?_, ?_, ?_⟩
    · intro q
      by_cases hq : q = p
      · rw [hq, getP_setP_self]; linarith
      · rw [getP_setP_ne hq]; exact ht q
    · rw [setP_dc]; exact htd
    · intro q; rw [getP_update_dc]; exact hw q
    · intro q; rw [getP_update_dc]; exact hc q
    · show 0 ≤ X.pc.dc + X.t.getP p
      have := ht p; linarith
    · simp only [total_update_dc]
      linarith
    · intro hdc; have := ht p; linarith
    · intro q; rw [getP_update_dc]
  · refine ⟨⟨?_, ?_, ?_, ?_, ?_⟩, ?_, ?_, ?_⟩
    · intro q
      by_cases hq : q = p
      · rw [hq, getP_setP_self]
        rcases le_or_lt 0 X.pw.dc with hd | hd
        · rw [max_eq_left hd]; have := ht p; linarith
        · rw [max_eq_right (le_of_lt hd)]; have := ht p; linarith
      · rw [getP_setP_ne hq]; exact ht q
    · rw [setP_dc]; exact htd
    · intro q; rw [getP_update_dc]; exact hw q
    · intro q; rw [getP_update_dc]; exact hc q
    · exact le_max_right _ _
    · simp only [total_update_dc]
      have h1 : 0 ≤ max X.pw.dc 0 := le_max_right _ _
      linarith
    · intro hdc; rw [max_eq_left hdc]; linarith
    · intro q; rw [getP_update_dc]
  · exact ⟨⟨ht, htd, hw, hc, hcd⟩, by linarith, fun hh => hh, fun q => rfl⟩

theorem donorStep_ok (l o : Phase) (hlo : l ≠ o) (pen : ℚ) (hpen : 0 < pen)
    (X : CascadeState) (h : CInv X) :
    CInv (donorStep l o pen X) ∧
    (donorStep l o pen X).pc.total - X.pc.total =
      X.pw.total - (donorStep l o pen X).pw.total ∧
    (donorStep l o pen X).pw.dc = X.pw.dc ∧
    (donorStep l o pen X).pw.getP l = X.pw.getP l := by
  obtain ⟨ht, htd, hw, hc, hcd⟩ := h
  have hol : o ≠ l := fun hh => hlo hh.symm
  unfold donorStep
  split_ifs with hg
  all_goals try dsimp only
  · refine ⟨⟨?_, ?_, ?_, ?_, ?_⟩, ?_, ?_, ?_⟩
    · intro q
      by_cases hq : q = l
      · rw [hq, getP_setP_self]; linarith
      · rw [getP_setP_ne hq]; exact ht q
    · rw [setP_dc]; exact htd
    · intro q
      by_cases hq : q = o
      · rw [hq, getP_setP_self]; linarith
      · rw [getP_setP_ne hq]; exact hw q
    · intro q
      by_cases hq : q = o
      · rw [hq, getP_setP_self]
        have hdiv : 0 ≤ X.t.getP l / pen := div_nonneg (ht l) (le_of_lt hpen)
        have := hc o; linarith
      · rw [getP_setP_ne hq]; exact hc q
    · rw [setP_dc]; exact hcd
    · rw [setP_total, setP_total]; ring
    · rw [setP_dc]
    · rw [getP_setP_ne hlo]
  · have hlt : X.pw.getP o * pen < X.t.getP l := by
      have hx : X.pw.getP o < X.t.getP l / pen := lt_of_not_ge hg
      exact (lt_div_iff₀ hpen).mp hx
    refine ⟨⟨?_, ?_, ?_, ?_, ?_⟩, ?_, ?_, ?_⟩
    · intro q
      by_cases hq : q = l
      · rw [hq, getP_setP_self]; linarith
      · rw [getP_setP_ne hq]; exact ht q
    · rw [setP_dc]; exact htd
    · intro q
      by_cases hq : q = o
      · rw [hq, getP_setP_self]; linarith
      · rw [getP_setP_ne hq]; exact hw q
    · intro q
      by_cases hq : q = o
      · rw [hq, getP_setP_self]; have := hc o; have := hw o; linarith
      · rw [getP_setP_ne hq]; exact hc q
    · rw [setP_dc]; exact hcd
    · rw [setP_total, setP_total]; ring
    · rw [setP_dc]
    · rw [getP_setP_ne hlo]

theorem tryClaimAc_ok (X : CascadeState) (h : CInv X) :
    CInv (tryClaimAc X) ∧
    (tryClaimAc X).pc.total - X.pc.total ≤ X.pw.total - (tryClaimAc X).pw.total ∧
    (tryClaimAc X).pw.dc = X.pw.dc := by
  have h1 := acStep_ok Phase.one X h
  have h2 := acStep_ok Phase.two _ h1.1
  have h3 := acStep_ok Phase.three _ h2.1
  unfold tryClaimAc
  exact ⟨h3.1, by linarith [h1.2.1, h2.2.1, h3.2.1],
    by rw [h3.2.2, h2.2.2, h1.2.2]⟩

theorem tryClaimDc_ok (X : CascadeState) (h : CInv X) :
    CInv (tryClaimDc X) ∧
    (tryClaimDc X).pc.total - X.pc.total ≤ X.pw.total - (tryClaimDc X).pw.total ∧
    (0 ≤ X.pw.dc → 0 ≤ (tryClaimDc X).pw.dc) := by
  have h1 := dcStep_ok Phase.one X h
  have h2 := dcStep_ok Phase.two _ h1.1
  have h3 := dcStep_ok Phase.three _ h2.1
  unfold tryClaimDc
  exact ⟨h3.1, by linarith [h1.2.1, h2.2.1, h3.2.1],
    fun hd => h3.2.2.1 (h2.2.2.1 (h1.2.2.1 hd))⟩

theorem donors_ne (l : Phase) : l ≠ (donors l).1 ∧ l ≠ (donors l).2 := by
  cases l <;> exact ⟨by decide, by decide⟩

theorem acdcacPhase_ok (l : Phase) (pen : ℚ) (hpen : 0 < pen) (X : CascadeState)
    (h : CInv X) :
    CInv (acdcacPhase l pen X) ∧
    (acdcacPhase l pen X).pc.total - X.pc.total =
      X.pw.total - (acdcacPhase l pen X).pw.total ∧
    (acdcacPhase l pen X).pw.dc = X.pw.dc := by
  unfold acdcacPhase
  split_ifs with hg
  · have d1 := donorStep_ok l (donors l).1 (donors_ne l).1 pen hpen X h
    have d2 := donorStep_ok l (donors l).2 (donors_ne l).2 pen hpen _ d1.1
    exact ⟨d2.1, by linarith [d1.2.1, d2.2.1], by rw [d2.2.2.1, d1.2.2.1]⟩
  · exact ⟨h, by linarith, rfl⟩

theorem tryClaimAcdcac_ok (pen : ℚ) (hpen : 0 < pen) (X : CascadeState) (h : CInv X) :
    CInv (tryClaimAcdcac pen X) ∧
    (tryClaimAcdcac pen X).pc.total - X.pc.total =
      X.pw.total - (tryClaimAcdcac pen X).pw.total ∧
    (tryClaimAcdcac pen X).pw.dc = X.pw.dc := by
  have h1 := acdcacPhase_ok Phase.one pen hpen X h
  have h2 := acdcacPhase_ok Phase.two pen hpen _ h1.1
  have h3 := acdcacPhase_ok Phase.three pen hpen _ h2.1
  unfold tryClaimAcdcac
  exact ⟨h3.1, by linarith [h1.2.1, h2.2.1, h3.2.1],
    by rw [h3.2.2, h2.2.2, h1.2.2]⟩

theorem claimCascade_ok (st : SystemType) (X : CascadeState) (h : CInv X) :
    CInv (claimCascade st X) ∧
    (claimCascade st X).pc.total - X.pc.total ≤
      X.pw.total - (claimCascade st X).pw.total ∧
    (0 ≤ X.pw.dc → 0 ≤ (claimCascade st X).pw.dc) := by
  have hpen1 : (0:ℚ) < 1 := by norm_num
  have hpen2 : (0:ℚ) < AC_DC_EFFICIENCY ^ 2 := by norm_num [AC_DC_EFFICIENCY]
  unfold claimCascade
  dsimp only
  split_ifs with hg hs ha hd
  · have a1 := tryClaimAcdcac_ok 1 hpen1 X h
    have a2 := tryClaimDc_ok _ a1.1
    exact ⟨a2.1, by linarith [a1.2.1, a2.2.1],
      fun hdc => a2.2.2 (by rw [a1.2.2]; exact hdc)⟩
  · have a1 := tryClaimAcdcac_ok 1 hpen1 X h
    exact ⟨a1.1, by linarith [a1.2.1], fun hdc => by rw [a1.2.2]; exact hdc⟩
  · have a1 := tryClaimDc_ok X h
    have a2 := tryClaimAcdcac_ok (AC_DC_EFFICIENCY ^ 2) hpen2 _ a1.1
    exact ⟨a2.1, by linarith [a1.2.1, a2.2.1],
      fun hdc => by rw [a2.2.2]; exact a1.2.2 hdc⟩
  · have a1 := tryClaimDc_ok X h
    exact ⟨a1.1, by linarith [a1.2.1], a1.2.2⟩
  · exact ⟨h, by linarith, fun hdc => hdc⟩

/-- Nonnegativity of a PAF on the three AC phases. -/
def PosAC (x : PAF) : Prop := ∀ p : Phase, 0 ≤ x.getP p

/-- Nonnegativity of a PAF on all four components. -/
def PosPC (x : PAF) : Prop := (∀ p : Phase, 0 ≤ x.getP p) ∧ 0 ≤ x.dc

theorem splitTarget_ok (cq : Commodity) (maxv : ℚ) (hm : 0 ≤ maxv) :
    PosAC (splitTarget cq maxv) ∧ (splitTarget cq maxv).dc = 0 := by
  have h3 : 0 ≤ maxv / 3 := by positivity
  cases cq <;>
    refine ⟨fun p => ?_, rfl⟩ <;>
    cases p <;>
    simp [splitTarget, PAF.getP] <;>
    linarith

theorem claimCore_ok (s : SolarOverhead) (cq : Commodity) (minv maxv : ℚ)
    (primary force : Bool) (hm : 0 ≤ maxv)
    (hpw : PosAC s.power) (hpc : PosPC s.power_claim) :
    PosAC (s.claimCore cq minv maxv primary force).2.power ∧
    PosPC (s.claimCore cq minv maxv primary force).2.power_claim ∧
    (s.claimCore cq minv maxv primary force).2.power_claim.total - s.power_claim.total ≤
      s.power.total - (s.claimCore cq minv maxv primary force).2.power.total ∧
    (force = false → 0 ≤ s.power.dc →
      0 ≤ (s.claimCore cq minv maxv primary force).2.power.dc) := by
  have hsp := splitTarget_ok cq maxv hm
  have h0 : CInv ⟨splitTarget cq maxv, s.power, s.power_claim⟩ :=
    ⟨hsp.1, hsp.2, hpw, hpc.1, hpc.2⟩
  have hac := tryClaimAc_ok _ h0
  have hcc := claimCascade_ok s.system_type _ hac.1
  set Z := claimCascade s.system_type
      (tryClaimAc ⟨splitTarget cq maxv, s.power, s.power_claim⟩) with hZ
  obtain ⟨⟨zt, ztd, zw, zc, zcd⟩, zineq, zdc⟩ := hcc
  have hac21 := hac.2.1
  have hac22 := hac.2.2
  dsimp only at hac21 hac22 zineq zdc
  unfold SolarOverhead.claimCore
  dsimp only
  rw [← hZ]
  split_ifs
  all_goals dsimp only
  all_goals refine ⟨?_, ⟨?_, ?_⟩, ?_, ?_⟩
  all_goals first
    | exact zw
    | exact zc
    | exact zcd
    | (intro p
       rw [getP_update_dc]
       first
         | exact zw p
         | exact zc p)
    | (have hT : Z.t.total > 0 := by assumption
       linarith)
    | (exact fun hf hdc => zdc (by rw [hac22]; exact hdc))
    | (intro hf hdc
       exact absurd (And.intro (by assumption : Z.t.total > 0) hf)
         (by assumption : ¬(Z.t.total > 0 ∧ force = false)))
    | (simp only [total_update_dc]
       have hT : Z.t.total > 0 := by assumption
       linarith [hac21, zineq])
    | (linarith [hac21, zineq])

theorem posPC_zero : PosPC ({} : PAF) := by
  refine ⟨fun p => ?_, by norm_num⟩
  cases p <;> norm_num [PAF.getP]

theorem runClaimsE_inv (cs : List ClaimArgs) (hm : ∀ a ∈ cs, 0 ≤ a.maxv) :
    ∀ s : SolarOverhead, s.transaction_running = true →
      PosAC s.power → PosPC s.power_claim →
      ∃ s', runClaimsE s cs = Except.ok s' ∧ s'.transaction_running = true ∧
        s'.prior_power = s.prior_power ∧ PosAC s'.power ∧ PosPC s'.power_claim ∧
        s'.power_claim.total - s.power_claim.total ≤ s.power.total - s'.power.total ∧
        ((∀ a ∈ cs, a.force = false) → 0 ≤ s.power.dc → 0 ≤ s'.power.dc) := by
  induction cs with
  | nil =>
    intro s h hw hc
    exact ⟨s, rfl, h, rfl, hw, hc, by linarith, fun _ hd => hd⟩
  | cons a as ih =>
    intro s h hw hc
    have hms : ∀ b ∈ as, 0 ≤ b.maxv := fun b hb => hm b (List.mem_cons_of_mem a hb)
    have hstep := claimCore_ok s a.cq a.minv a.maxv a.primary a.force
      (hm a (List.mem_cons_self a as)) hw hc
    have hpres := claimCore_preserves s a.cq a.minv a.maxv a.primary a.force
    obtain ⟨s', h1, h2, h3, h4, h5, h6, h7⟩ :=
      ih hms _ (hpres.1.trans h) hstep.1 hstep.2.1
    refine ⟨s', ?_, h2, h3.trans hpres.2.1, h4, h5, ?_, ?_⟩
    · simp [runClaimsE, SolarOverhead.claim, h, h1, exceptBind_ok]
    · have := hstep.2.2.1
      linarith
    · intro hf hd
      have hff : a.force = false := hf a (List.mem_cons_self a as)
      have hfs : ∀ b ∈ as, b.force = false := fun b hb => hf b (List.mem_cons_of_mem a hb)
      exact h7 hfs (hstep.2.2.2 hff hd)

/-- C2 (amended): for every begin(); claim()*; commit() sequence whose
begin-time AC surplus components are nonnegative and whose claim maxima are
nonnegative, the remaining surplus total is at most the begin-time total
minus the accumulated-claim total (the committed claim can under-report the
power actually drained, because the DC shortfall branch and repeated claims
on the same phase overwrite earlier claim records instead of accumulating
them); and when additionally no claim uses force and the begin-time DC
balance is nonnegative, the accumulated-claim total is at most the
begin-time surplus total. -/
theorem commit_claim_bounded (s : SolarOverhead) (cs : List ClaimArgs)
    (claimRet : PAF) (s' : SolarOverhead)
    (htr : s.transaction_running = false) (hpw : PosAC s.power)
    (hm : ∀ a ∈ cs, 0 ≤ a.maxv)
    (hrun : runCommit s cs = Except.ok (claimRet, s')) :
    s'.power.total ≤ s.power.total - claimRet.total ∧
    ((∀ a ∈ cs, a.force = false) → 0 ≤ s.power.dc →
      claimRet.total ≤ s.power.total) := by
  obtain ⟨s₂, h1, h2, h3, h4, h5, h6, h7⟩ :=
    runClaimsE_inv cs hm s.beginCore rfl hpw posPC_zero
  have hpipe : runCommit s cs =
      Except.ok (s₂.power_claim, { s₂ with transaction_running := false }) := by
    simp [runCommit, SolarOverhead.begin, htr, exceptBind_ok, h1,
      SolarOverhead.comit, h2, SolarOverhead.comitCore]
  rw [hpipe] at hrun
  injection hrun with hp
  rw [Prod.mk.injEq] at hp
  obtain ⟨hcr, hs'⟩ := hp
  have h6' : s₂.power_claim.total ≤ s.power.total - s₂.power.total := by
    have hzt : ({} : PAF).total = 0 := by norm_num [PAF.total]
    dsimp only [SolarOverhead.beginCore] at h6
    rw [hzt] at h6
    linarith
  constructor
  · rw [← hcr, ← hs']
    dsimp only
    linarith
  · intro hf hd
    have hdc2 : 0 ≤ s₂.power.dc := h7 hf hd
    have hl1 := h4 Phase.one
    have hl2 := h4 Phase.two
    have hl3 := h4 Phase.three
    simp only [PAF.getP] at hl1 hl2 hl3
    have htot : 0 ≤ s₂.power.total := by
      simp only [PAF.total]
      linarith
    rw [← hcr]
    linarith

/-- Concrete ledger for the C2 counterexample: 100 W surplus on L1 only. -/
def c2s : SolarOverhead :=
  mkSolarOverhead 100 0 0 0 0 0 4000 4000 4000 SystemType.GridConnected1Phase

/-- Single forced 1000 W claim for the C2 counterexample. -/
def c2cs : List ClaimArgs := [⟨Commodity.cl1, 0, 1000, false, true⟩]

/-- Concrete result of the C2 counterexample pipeline. -/
def c2r : PAF × SolarOverhead :=
  (runCommit c2s c2cs).toOption.getD ({}, c2s)

unseal Rat.add Rat.sub Rat.mul Rat.inv in
/-- C2 counterexample: a begin(); claim(force = true); commit() sequence on
a ledger whose begin-time surplus totals 100 W commits an accumulated claim
of 1000 W, because the forced shortfall is charged to DC; this refutes the
claimed bound accumulated_claim.total at most the begin-time total, which
the claim asserts also for sequences using force = true. -/
theorem commit_claim_exceeds_initial :
    c2s.power.total = 100 ∧
    runCommit c2s c2cs = Except.ok (c2r.1, c2r.2) ∧
    c2r.1.total = 1000 ∧ ¬ c2r.1.total ≤ c2s.power.total := by
  decide

/-- Concrete ledger for the C2 witness. -/
def c2ws : SolarOverhead :=
  mkSolarOverhead 60 0 0 30 0 0 4000 4000 4000 SystemType.GridConnected1Phase

/-- Concrete claim sequence for the C2 witness: one successful claim and one
rejected symmetric claim, no force. -/
def c2wcs : List ClaimArgs :=
  [⟨Commodity.cl1, 0, 50, false, false⟩, ⟨Commodity.sym, 0, 90, false, false⟩]

/-- Concrete result of the C2 witness pipeline. -/
def c2wr : PAF × SolarOverhead :=
  (runCommit c2ws c2wcs).toOption.getD ({}, c2ws)

unseal Rat.add Rat.sub Rat.mul Rat.inv in
theorem commit_claim_bounded_witness :
    c2ws.transaction_running = false ∧ (∀ a ∈ c2wcs, 0 ≤ a.maxv) ∧
    runCommit c2ws c2wcs = Except.ok (c2wr.1, c2wr.2) ∧
    (c2wr.2.power.total ≤ c2ws.power.total - c2wr.1.total ∧
     ((∀ a ∈ c2wcs, a.force = false) → 0 ≤ c2ws.power.dc →
       c2wr.1.total ≤ c2ws.power.total)) := by
  refine ⟨rfl, by decide, by decide, ?_⟩
  exact commit_claim_bounded c2ws c2wcs c2wr.1 c2wr.2 rfl
    (by intro p; cases p <;> decide) (by decide) (by decide)

theorem setP_acSum (x : PAF) (p : Phase) (v : ℚ) :
    (x.setP p v).acSum = x.acSum - x.getP p + v := by
  cases p <;> (simp only [PAF.acSum, PAF.setP, PAF.getP]; ring)

theorem donorStep_t_ne (l o : Phase) (pen : ℚ) (X : CascadeState) {q : Phase}
    (hq : q ≠ l) : (donorStep l o pen X).t.getP q = X.t.getP q := by
  unfold donorStep
  dsimp only
  split_ifs <;> rw [getP_setP_ne hq]

theorem donorStep_pw_l (l o : Phase) (hlo : l ≠ o) (pen : ℚ) (X : CascadeState) :
    (donorStep l o pen X).pw.getP l = X.pw.getP l := by
  unfold donorStep
  dsimp only
  split_ifs <;> rw [getP_setP_ne hlo]

theorem donorStep_pw_dc (l o : Phase) (pen : ℚ) (X : CascadeState) :
    (donorStep l o pen X).pw.dc = X.pw.dc := by
  unfold donorStep
  dsimp only
  split_ifs <;> rw [setP_dc]

theorem donorStep_acct (l o : Phase) (pen : ℚ) (hpen : pen ≠ 0) (X : CascadeState) :
    X.t.acSum - (donorStep l o pen X).t.acSum =
      pen * (X.pw.acSum - (donorStep l o pen X).pw.acSum) := by
  unfold donorStep
  dsimp only
  split_ifs <;> (rw [setP_acSum, setP_acSum]; field_simp; ring)

theorem acdcacPhase_t_ne (l : Phase) (pen : ℚ) (X : CascadeState) {q : Phase}
    (hq : q ≠ l) : (acdcacPhase l pen X).t.getP q = X.t.getP q := by
  unfold acdcacPhase
  split_ifs
  · rw [donorStep_t_ne _ _ _ _ hq, donorStep_t_ne _ _ _ _ hq]
  · rfl

theorem acdcacPhase_pw_l (l : Phase) (pen : ℚ) (X : CascadeState) :
    (acdcacPhase l pen X).pw.getP l = X.pw.getP l := by
  unfold acdcacPhase
  split_ifs
  · rw [donorStep_pw_l _ _ (donors_ne l).2, donorStep_pw_l _ _ (donors_ne l).1]
  · rfl

theorem acdcacPhase_pw_dc (l : Phase) (pen : ℚ) (X : CascadeState) :
    (acdcacPhase l pen X).pw.dc = X.pw.dc := by
  unfold acdcacPhase
  split_ifs
  · rw [donorStep_pw_dc, donorStep_pw_dc]
  · rfl

theorem acdcacPhase_acct (l : Phase) (pen : ℚ) (hpen : pen ≠ 0) (X : CascadeState) :
    X.t.acSum - (acdcacPhase l pen X).t.acSum =
      pen * (X.pw.acSum - (acdcacPhase l pen X).pw.acSum) := by
  unfold acdcacPhase
  split_ifs
  · have a1 := donorStep_acct l (donors l).1 pen hpen X
    have a2 := donorStep_acct l (donors l).2 pen hpen (donorStep l (donors l).1 pen X)
    linarith
  · ring

theorem acdcacPhase_id_of_zero (l : Phase) (pen : ℚ) (X : CascadeState)
    (h : X.t.getP l = 0) : acdcacPhase l pen X = X := by
  unfold acdcacPhase
  rw [h]
  norm_num

/-- C4: the ACDCAC route leaves the DC balance untouched; when the demand is
confined to a single phase P, the surplus of P itself is never drawn from
(only donor phases Q different from P are); the power delivered onto the
demanded phases equals penalty times the power withdrawn from the donors,
i.e. delivering W watts withdraws W / penalty watts; and the claim cascade
applies penalty 1.0 before DC in grid-connected 2-phase or 3-phase
saldating topologies, while any other topology tries DC first and then
ACDCAC with penalty AC_DC_EFFICIENCY ^ 2. -/
theorem acdcac_drains_donors_with_penalty (pen : ℚ) (hpen : pen ≠ 0)
    (st : SystemType) (X : CascadeState) :
    (tryClaimAcdcac pen X).pw.dc = X.pw.dc ∧
    (∀ P : Phase, (∀ Q, Q ≠ P → X.t.getP Q = 0) →
      (tryClaimAcdcac pen X).pw.getP P = X.pw.getP P) ∧
    (X.t.acSum - (tryClaimAcdcac pen X).t.acSum =
      pen * (X.pw.acSum - (tryClaimAcdcac pen X).pw.acSum)) ∧
    ((st = SystemType.GridConnected2PhaseSaldating ∨
      st = SystemType.GridConnected3PhaseSaldating) → X.t.total > 0 →
      ¬(tryClaimAcdcac 1 X).t.total > 0 →
      claimCascade st X = tryClaimAcdcac 1 X) ∧
    (¬(st = SystemType.GridConnected2PhaseSaldating ∨
       st = SystemType.GridConnected3PhaseSaldating) → X.t.total > 0 →
      claimCascade st X =
        (if (tryClaimDc X).t.total > 0 then
          tryClaimAcdcac (AC_DC_EFFICIENCY ^ 2) (tryClaimDc X)
        else tryClaimDc X)) := by
  refine ⟨?_, ?_, ?_, ?_, ?_⟩
  · unfold tryClaimAcdcac
    rw [acdcacPhase_pw_dc, acdcacPhase_pw_dc, acdcacPhase_pw_dc]
  · intro P hP
    unfold tryClaimAcdcac
    cases P
    · have e2 : acdcacPhase Phase.two pen (acdcacPhase Phase.one pen X) =
          acdcacPhase Phase.one pen X :=
        acdcacPhase_id_of_zero _ _ _
          (by rw [acdcacPhase_t_ne _ _ _ (by decide)]; exact hP Phase.two (by decide))
      have e3 : acdcacPhase Phase.three pen (acdcacPhase Phase.one pen X) =
          acdcacPhase Phase.one pen X :=
        acdcacPhase_id_of_zero _ _ _
          (by rw [acdcacPhase_t_ne _ _ _ (by decide)]; exact hP Phase.three (by decide))
      rw [e2, e3, acdcacPhase_pw_l]
    · have e1 : acdcacPhase Phase.one pen X = X :=
        acdcacPhase_id_of_zero _ _ _ (hP Phase.one (by decide))
      rw [e1]
      have e3 : acdcacPhase Phase.three pen (acdcacPhase Phase.two pen X) =
          acdcacPhase Phase.two pen X :=
        acdcacPhase_id_of_zero _ _ _
          (by rw [acdcacPhase_t_ne _ _ _ (by decide)]; exact hP Phase.three (by decide))
      rw [e3, acdcacPhase_pw_l]
    · have e1 : acdcacPhase Phase.one pen X = X :=
        acdcacPhase_id_of_zero _ _ _ (hP Phase.one (by decide))
      rw [e1]
      have e2 : acdcacPhase Phase.two pen X = X :=
        acdcacPhase_id_of_zero _ _ _ (hP Phase.two (by decide))
      rw [e2, acdcacPhase_pw_l]
  · have a1 := acdcacPhase_acct Phase.one pen hpen X
    have a2 := acdcacPhase_acct Phase.two pen hpen (acdcacPhase Phase.one pen X)
    have a3 := acdcacPhase_acct Phase.three pen hpen
      (acdcacPhase Phase.two pen (acdcacPhase Phase.one pen X))
    unfold tryClaimAcdcac
    linarith
  · intro hs hg hna
    unfold claimCascade
    rw [if_pos hg, if_pos hs, if_neg hna]
  · intro hs hg
    unfold claimCascade
    rw [if_pos hg, if_neg hs]

/-- Concrete penalty for the C4 witness. -/
def c4pen : ℚ := AC_DC_EFFICIENCY ^ 2

/-- Concrete cascade state for the C4 witness: 50 W demand on L2,
donor surplus on L1 and L3, 80 W DC balance. -/
def c4X : CascadeState := ⟨⟨0, 50, 0, 0⟩, ⟨200, 0, 100, 80⟩, {}⟩

theorem acdcac_drains_donors_with_penalty_witness :
    c4pen ≠ 0 ∧
    ((tryClaimAcdcac c4pen c4X).pw.dc = c4X.pw.dc ∧
     (∀ P : Phase, (∀ Q, Q ≠ P → c4X.t.getP Q = 0) →
       (tryClaimAcdcac c4pen c4X).pw.getP P = c4X.pw.getP P) ∧
     (c4X.t.acSum - (tryClaimAcdcac c4pen c4X).t.acSum =
       c4pen * (c4X.pw.acSum - (tryClaimAcdcac c4pen c4X).pw.acSum)) ∧
     ((SystemType.GridConnected1Phase = SystemType.GridConnected2PhaseSaldating ∨
       SystemType.GridConnected1Phase = SystemType.GridConnected3PhaseSaldating) →
       c4X.t.total > 0 → ¬(tryClaimAcdcac 1 c4X).t.total > 0 →
       claimCascade SystemType.GridConnected1Phase c4X = tryClaimAcdcac 1 c4X) ∧
     (¬(SystemType.GridConnected1Phase = SystemType.GridConnected2PhaseSaldating ∨
        SystemType.GridConnected1Phase = SystemType.GridConnected3PhaseSaldating) →
       c4X.t.total > 0 →
       claimCascade SystemType.GridConnected1Phase c4X =
         (if (tryClaimDc c4X).t.total > 0 then
           tryClaimAcdcac (AC_DC_EFFICIENCY ^ 2) (tryClaimDc c4X)
         else tryClaimDc c4X))) :=
  ⟨by norm_num [c4pen, AC_DC_EFFICIENCY],
   acdcac_drains_donors_with_penalty c4pen
     (by norm_num [c4pen, AC_DC_EFFICIENCY])
     SystemType.GridConnected1Phase c4X⟩

/-- Consumer class, source enum ConsumerType. -/
inductive ConsumerType
  | Primary
  | Secondary
deriving DecidableEq, Repr

/-- Control types relevant to the delegate, source s2python ControlType. -/
inductive CtrlType
  | notControllable
  | ombc
  | other
deriving DecidableEq, Repr

/-- Source s2python Timer as used by the delegate: an id and a duration in
seconds. -/
structure OMBCTimer where
  id : ℕ
  duration : ℚ
deriving DecidableEq, Repr

/-- Source s2python PowerRange: a commodity with start and end of range. -/
structure PowerRange where
  commodity_quantity : Commodity
  start_of_range : ℚ
  end_of_range : ℚ
deriving DecidableEq, Repr

/-- Source s2python OMBCOperationMode: an id and its power ranges. -/
structure OMBCOperationMode where
  id : ℕ
  power_ranges : List PowerRange
deriving DecidableEq, Repr

/-- Source s2python Transition: an edge of the operation-mode graph. -/
structure OMBCTransition where
  from_ : ℕ
  to_ : ℕ
  start_timers : List ℕ
  blocking_timers : List ℕ
deriving DecidableEq, Repr

/-- Source s2python OMBCSystemDescription: modes, transitions and timers. -/
structure OMBCSystemDescription where
  message_id : ℕ
  operation_modes : List OMBCOperationMode
  transitions : List OMBCTransition
  timers : List OMBCTimer
deriving DecidableEq, Repr

/-- Source s2python ResourceManagerDetails, restricted to the fields the
delegate reads. -/
structure RMDetails where
  message_id : ℕ
  available_control_types : List CtrlType
  provides_power_measurement_types : List ℕ
deriving DecidableEq, Repr

/-- Reply callbacks registered by _s2_send_message: the source registers
exactly two kinds of closures, the NOT_CONTROLABLE selection handler and
the OMBC selection handler (keep-alive replies do not go through the
reception-status table). -/
inductive CallbackKind
  | noctrl
  | ombcSel
deriving DecidableEq, Repr

/--
Source class S2RMDelegate: per-consumer session state. Python keeps
ombc_timers (id to Timer) and ombc_timer_starts (id to start instant) as
two dicts with synchronized key sets; both are association lists here, with
durations and start instants in seconds as rationals. Timestamps are
rationals (seconds). power_request is initialized to a zero PhaseAwareFloat
but can be assigned the ledger's possibly-absent power_request, hence the
Option.
-/
structure S2RMDelegate where
  initialized : Bool := false
  is_active_ems_control : Bool := false
  priority : ℕ := 50
  consumer_type : ConsumerType := ConsumerType.Secondary
  power_claim : Option PAF := some {}
  power_request : Option PAF := some {}
  current_power : PAF := {}
  current_counter : PAF := {}
  current_timestamps : PAF := {}
  last_pop_powerstats : Option ℚ := none
  reply_handlers : List (ℕ × CallbackKind) := []
  rm_details : Option RMDetails := none
  active_control_type : Option CtrlType := none
  ombc_system_description : Option OMBCSystemDescription := none
  ombc_active_operation_mode : Option OMBCOperationMode := none
  ombc_next_operation_mode : Option OMBCOperationMode := none
  ombc_timers : List (ℕ × ℚ) := []
  ombc_timer_starts : List (ℕ × ℚ) := []
deriving DecidableEq, Repr

/-- Python round(x, 0): round half to even, returning a float. -/
def pyRound (x : ℚ) : ℚ :=
  let f : ℤ := x.floor
  let r : ℚ := x - f
  if r < 1 / 2 then (f : ℚ)
  else if r > 1 / 2 then ((f + 1 : ℤ) : ℚ)
  else if f % 2 = 0 then (f : ℚ) else ((f + 1 : ℤ) : ℚ)

/-- The (blocking-timer-id, running-timer-duration) pairs examined by
_ombc_check_timer_block, in source iteration order: transitions from the
active to the next mode, their blocking timer ids, and for each the
matching entries of the running-timer map. -/
def timerEvents (sd : OMBCSystemDescription) (amId nmId : ℕ)
    (running : List (ℕ × ℚ)) : List (ℕ × ℚ) :=
  (sd.transitions.filter (fun t => t.from_ == amId && t.to_ == nmId)).flatMap
    (fun t => t.blocking_timers.flatMap
      (fun bt => running.flatMap
        (fun rt => if bt == rt.1 then [(bt, rt.2)] else [])))

/-- Source _ombc_check_timer_block inner loop: scan the events in order;
an expired timer is collected for invalidation, the first still-running one
returns the rounded remaining seconds immediately (the collected list is
local and is discarded on that early return, as in the source). -/
def processTimerEvents (now : ℚ) (starts : List (ℕ × ℚ)) :
    List (ℕ × ℚ) → List ℕ × Option ℚ
  | [] => ([], none)
  | (bt, dur) :: rest =>
    let st := ((starts.lookup bt).getD 0)
    if st + dur < now then
      let (inv, res) := processTimerEvents now starts rest
      (bt :: inv, res)
    else
      ([], some (pyRound (st + dur - now)))

/-- Source S2RMDelegate._ombc_check_timer_block: returns the remaining
blocked seconds (0 if clear) and removes expired timers from both maps when
no blocking timer was hit. The python code reads self.ombc_system_description
unconditionally; it is only reachable with a stored description, so the
none case returns 0. -/
def ombcCheckTimerBlock (d : S2RMDelegate) (now : ℚ) : ℚ × S2RMDelegate :=
  match d.ombc_active_operation_mode, d.ombc_next_operation_mode with
  | some am, some nm =>
    match d.ombc_system_description with
    | none => (0, d)
    | some sd =>
      match processTimerEvents now d.ombc_timer_starts
          (timerEvents sd am.id nm.id d.ombc_timers) with
      | (_, some r) => (r, d)
      | (inv, none) =>
        (0, { d with
              ombc_timers := d.ombc_timers.filter (fun e => !(inv.contains e.1)),
              ombc_timer_starts :=
                d.ombc_timer_starts.filter (fun e => !(inv.contains e.1)) })
  | _, _ => (0, d)

/-- Source S2RMDelegate._ombc_can_transition: a self-transition is always
allowed, otherwise an edge from the active mode to the candidate must
exist. -/
def ombcCanTransition (sd : OMBCSystemDescription)
    (am opm : OMBCOperationMode) : Bool :=
  am.id == opm.id ||
    sd.transitions.any (fun t => t.from_ == am.id && t.to_ == opm.id)

/-- Source _ombc_self_assign_overhead inner loop over one mode's power
ranges: claim each range with the mode-level force flag, stopping at the
first failure. Assumes an open transaction, as at the loop's call site. -/
def tryRanges (primary force : Bool) :
    List PowerRange → SolarOverhead → Bool × SolarOverhead
  | [], oh => (true, oh)
  | pr :: rest, oh =>
    let r := oh.claimCore pr.commodity_quantity pr.start_of_range
      pr.end_of_range primary force
    if r.1 then tryRanges primary force rest r.2 else (false, r.2)

/-- Source _ombc_self_assign_overhead per-mode trial: begin a transaction,
claim every range, roll back on failure (leaving the transaction open on
success for the caller's comit). -/
def tryOperationMode (oh : SolarOverhead) (opm : OMBCOperationMode)
    (primary force : Bool) : Bool × SolarOverhead :=
  match tryRanges primary force opm.power_ranges oh.beginCore with
  | (true, o2) => (true, o2)
  | (false, o2) => (false, o2.rollbackCore)

/-- A mode is claimable from a ledger when every one of its power ranges
can be claimed without force. -/
def modeClaimable (oh : SolarOverhead) (opm : OMBCOperationMode)
    (primary : Bool) : Bool :=
  (tryOperationMode oh opm primary false).1

/-- Source _ombc_self_assign_overhead main loop over the eligible modes.
On the first successful trial the transaction is comitted, the proposed
next mode is recorded, and the timer-block/claim-revert logic of source
lines 975-990 runs; on failure the rolled-back ledger is used for the next
candidate. The python source reads self.power_request.total, which is the
ledger's possibly-absent power_request; the absent case (no claim was
performed at all) is read as a zero value here. -/
def assignLoop (d : S2RMDelegate) (now : ℚ) (forcedId : ℕ) :
    List OMBCOperationMode → SolarOverhead → S2RMDelegate × SolarOverhead
  | [], oh => (d, oh)
  | opm :: rest, oh =>
    let primary := d.consumer_type == ConsumerType.Primary
    let force := opm.id == forcedId
    match tryOperationMode oh opm primary force with
    | (false, oh') => assignLoop d now forcedId rest oh'
    | (true, oh') =>
      let old_power_claim := d.power_claim
      let r := oh'.comitCore
      let new_power_claim := r.1
      let oh2 := r.2
      let d1 := { d with ombc_next_operation_mode := some opm }
      let br := ombcCheckTimerBlock d1 now
      let d2 := br.2
      if br.1 > 0 then
        match old_power_claim with
        | some old =>
          if old.total > new_power_claim.total then
            ({ d2 with power_claim := some old },
             { oh2 with power := oh2.power + new_power_claim - old })
          else (d2, oh2)
        | none => (d2, oh2)
      else
        ({ d2 with power_claim := some new_power_claim,
                   power_request := oh2.power_request,
                   is_active_ems_control :=
                     decide (0 < ((oh2.power_request).getD {}).total) }, oh2)

/-- Source S2RMDelegate._ombc_self_assign_overhead: preconditions, eligible
mode enumeration, forced-state selection and the trial loop. When a
transaction is already open, the begin() inside the loop raises; the
exception is caught by self_assign_overhead which rolls the ledger back,
modeled by the transaction_running branch. -/
def ombcSelfAssign (d : S2RMDelegate) (now : ℚ) (oh : SolarOverhead) :
    S2RMDelegate × SolarOverhead :=
  match d.ombc_system_description with
  | none => (d, oh)
  | some sd =>
    match d.ombc_active_operation_mode with
    | none => (d, oh)
    | some am =>
      let eligible := sd.operation_modes.filter (ombcCanTransition sd am)
      match eligible.getLast? with
      | none => (d, oh)
      | some forced =>
        if oh.transaction_running then (d, oh.rollbackCore)
        else assignLoop d now forced.id eligible oh

/-- Source S2RMDelegate.self_assign_overhead: clears the session's power
claim, then delegates to the OMBC assignment when OMBC is the active
control type. -/
def selfAssignOverhead (d : S2RMDelegate) (now : ℚ) (oh : SolarOverhead) :
    S2RMDelegate × SolarOverhead :=
  let d0 := { d with power_claim := none }
  if d0.active_control_type == some CtrlType.ombc then
    ombcSelfAssign d0 now oh
  else (d0, oh)

/-- Expensive operation mode for the C5 scenario: 500 W on L1. -/
def c5hi : OMBCOperationMode := ⟨1, [⟨Commodity.cl1, 0, 500⟩]⟩

/-- Cheap (off) operation mode for the C5 scenario: 0 W. -/
def c5lo : OMBCOperationMode := ⟨2, [⟨Commodity.cl1, 0, 0⟩]⟩

/-- System description for the C5 scenario: modes sorted expensive first,
the hi-to-lo edge carrying blocking timer 7 of 300 s. -/
def c5sd : OMBCSystemDescription :=
  ⟨11, [c5hi, c5lo],
   [⟨1, 2, [], [7]⟩, ⟨2, 1, [], []⟩],
   [⟨7, 300⟩]⟩

/-- Session state for the C5 scenario: active mode hi, a prior power claim
of 500 W held from the previous tick, blocking timer 7 running since t=60. -/
def c5d : S2RMDelegate :=
  { initialized := true
    active_control_type := some CtrlType.ombc
    consumer_type := ConsumerType.Secondary
    power_claim := some ⟨500, 0, 0, 0⟩
    ombc_system_description := some c5sd
    ombc_active_operation_mode := some c5hi
    ombc_timers := [(7, 300)]
    ombc_timer_starts := [(7, 60)] }

/-- Ledger for the C5 scenario: no surplus left, so only the forced off
mode is claimable. -/
def c5oh : SolarOverhead :=
  mkSolarOverhead 0 0 0 0 0 0 4000 4000 4000 SystemType.GridConnected1Phase

/-- Wall-clock instant of the C5 scenario: 60 s after the timer start, so
240 s of the 300 s blocking timer remain. -/
def c5now : ℚ := 120

/-- Session state of the C5 scenario as it stands at the timer-block check:
power claim cleared by self_assign_overhead, next mode set to lo. -/
def c5dblocked : S2RMDelegate :=
  { c5d with power_claim := none, ombc_next_operation_mode := some c5lo }

unseal Rat.add Rat.sub Rat.mul Rat.inv in
/-- C5: the claim says that when the proposed-next mode is reached over an
edge with a running blocking timer and the new claim is smaller, the
post-self_assign power-claim equals the prior claim and the difference is
deducted from the ledger. The code cannot do this: self_assign_overhead
sets self.power_claim = None before delegating, so old_power_claim is
always None at the revert check and the revert branch is dead. At this
input the transition hi to lo is blocked for another 240 s and the prior
claim was 500 W, yet after self_assign the session's power-claim is None
(not the prior 500 W claim) and the ledger's surplus is unchanged (nothing
is deducted back out). -/
theorem blocked_transition_drops_prior_claim :
    c5d.power_claim = some ⟨500, 0, 0, 0⟩ ∧
    (ombcCheckTimerBlock c5dblocked c5now).1 = 240 ∧
    (selfAssignOverhead c5d c5now c5oh).1.ombc_next_operation_mode = some c5lo ∧
    (selfAssignOverhead c5d c5now c5oh).1.power_claim = none ∧
    (selfAssignOverhead c5d c5now c5oh).2.power = c5oh.power := by
  decide

theorem claimCore_force_true (s : SolarOverhead) (cq : Commodity) (minv maxv : ℚ)
    (primary : Bool) : (s.claimCore cq minv maxv primary true).1 = true := by
  unfold SolarOverhead.claimCore
  dsimp only
  norm_num

theorem tryRanges_force_true (primary : Bool) :
    ∀ (rs : List PowerRange) (oh : SolarOverhead),
      (tryRanges primary true rs oh).1 = true := by
  intro rs
  induction rs with
  | nil => intro oh; rfl
  | cons r rest ih =>
    intro oh
    unfold tryRanges
    dsimp only
    rw [if_pos (claimCore_force_true oh r.commodity_quantity r.start_of_range
      r.end_of_range primary)]
    exact ih _

theorem tryOperationMode_force_true (oh : SolarOverhead) (opm : OMBCOperationMode)
    (primary : Bool) : (tryOperationMode oh opm primary true).1 = true := by
  unfold tryOperationMode
  rcases hr : tryRanges primary true opm.power_ranges oh.beginCore with ⟨b, o2⟩
  have hb : b = true := by
    have := tryRanges_force_true primary opm.power_ranges oh.beginCore
    rw [hr] at this
    exact this
  subst hb
  rfl

/-- The components of the claim behavior: the ledger fields that determine
the outcome of a claim inside a transaction. -/
def ledgerView (s : SolarOverhead) : PAF × PAF × SystemType × ℚ :=
  (s.power, s.power_claim, s.system_type, s.battery_reservation)

theorem claimCore_view (s₁ s₂ : SolarOverhead) (h : ledgerView s₁ = ledgerView s₂)
    (cq : Commodity) (minv maxv : ℚ) (primary force : Bool) :
    (s₁.claimCore cq minv maxv primary force).1 =
      (s₂.claimCore cq minv maxv primary force).1 ∧
    ledgerView (s₁.claimCore cq minv maxv primary force).2 =
      ledgerView (s₂.claimCore cq minv maxv primary force).2 := by
  obtain ⟨e1, e2, e3, e4⟩ : s₁.power = s₂.power ∧ s₁.power_claim = s₂.power_claim ∧
      s₁.system_type = s₂.system_type ∧
      s₁.battery_reservation = s₂.battery_reservation := by
    simpa [ledgerView, Prod.ext_iff] using h
  unfold SolarOverhead.claimCore
  dsimp only
  rw [e1, e2, e3, e4]
  constructor
  · split_ifs <;> rfl
  · split_ifs <;> simp [ledgerView, e3, e4]

theorem tryRanges_view (primary force : Bool) :
    ∀ (rs : List PowerRange) (oh₁ oh₂ : SolarOverhead),
      ledgerView oh₁ = ledgerView oh₂ →
      (tryRanges primary force rs oh₁).1 = (tryRanges primary force rs oh₂).1 ∧
      ledgerView (tryRanges primary force rs oh₁).2 =
        ledgerView (tryRanges primary force rs oh₂).2 := by
  intro rs
  induction rs with
  | nil => exact fun oh₁ oh₂ h => ⟨rfl, h⟩
  | cons r rest ih =>
    intro oh₁ oh₂ h
    have hc := claimCore_view oh₁ oh₂ h r.commodity_quantity r.start_of_range
      r.end_of_range primary force
    unfold tryRanges
    dsimp only
    rw [← hc.1]
    by_cases hb : (oh₁.claimCore r.commodity_quantity r.start_of_range
        r.end_of_range primary force).1 = true
    · rw [if_pos hb, if_pos hb]
      exact ih _ _ hc.2
    · rw [if_neg hb, if_neg hb]
      exact ⟨rfl, hc.2⟩

theorem tryRanges_preserves (primary force : Bool) :
    ∀ (rs : List PowerRange) (oh : SolarOverhead),
      (tryRanges primary force rs oh).2.prior_power = oh.prior_power ∧
      (tryRanges primary force rs oh).2.system_type = oh.system_type ∧
      (tryRanges primary force rs oh).2.battery_reservation = oh.battery_reservation ∧
      (tryRanges primary force rs oh).2.transaction_running = oh.transaction_running := by
  intro rs
  induction rs with
  | nil => exact fun oh => ⟨rfl, rfl, rfl, rfl⟩
  | cons r rest ih =>
    intro oh
    have hp := claimCore_preserves oh r.commodity_quantity r.start_of_range
      r.end_of_range primary force
    unfold tryRanges
    dsimp only
    split_ifs
    · have := ih (oh.claimCore r.commodity_quantity r.start_of_range
        r.end_of_range primary force).2
      exact ⟨this.1.trans hp.2.1, this.2.1.trans hp.2.2.2,
        this.2.2.1.trans hp.2.2.1, this.2.2.2.trans hp.1⟩
    · exact ⟨hp.2.1, hp.2.2.2, hp.2.2.1, hp.1⟩

/-- The ledger fields visible to a fresh transaction: surplus, topology,
reservation. -/
def mview (s : SolarOverhead) : PAF × SystemType × ℚ :=
  (s.power, s.system_type, s.battery_reservation)

theorem tryOperationMode_bool_view (oh₁ oh₂ : SolarOverhead)
    (m : OMBCOperationMode) (p f : Bool) (h : mview oh₁ = mview oh₂) :
    (tryOperationMode oh₁ m p f).1 = (tryOperationMode oh₂ m p f).1 := by
  obtain ⟨e1, e2, e3⟩ : oh₁.power = oh₂.power ∧ oh₁.system_type = oh₂.system_type ∧
      oh₁.battery_reservation = oh₂.battery_reservation := by
    simpa [mview, Prod.ext_iff] using h
  have hb : ledgerView oh₁.beginCore = ledgerView oh₂.beginCore := by
    simp [ledgerView, SolarOverhead.beginCore, e1, e2, e3]
  have hv := tryRanges_view p f m.power_ranges _ _ hb
  unfold tryOperationMode
  rcases h₁ : tryRanges p f m.power_ranges oh₁.beginCore with ⟨b1, o1⟩
  rcases h₂ : tryRanges p f m.power_ranges oh₂.beginCore with ⟨b2, o2⟩
  have hbe : b1 = b2 := by
    have := hv.1
    rw [h₁, h₂] at this
    exact this
  subst hbe
  cases b1 <;> rfl

theorem modeClaimable_view (oh₁ oh₂ : SolarOverhead) (m : OMBCOperationMode)
    (p : Bool) (h : mview oh₁ = mview oh₂) :
    modeClaimable oh₁ m p = modeClaimable oh₂ m p :=
  tryOperationMode_bool_view oh₁ oh₂ m p false h

theorem tryOperationMode_fail (oh oh' : SolarOverhead) (m : OMBCOperationMode)
    (p f : Bool) (h : tryOperationMode oh m p f = (false, oh')) :
    mview oh' = mview oh ∧ oh'.transaction_running = false := by
  unfold tryOperationMode at h
  rcases hr : tryRanges p f m.power_ranges oh.beginCore with ⟨b2, o2⟩
  rw [hr] at h
  cases b2
  · have ho : oh' = o2.rollbackCore := by
      injection h with h1 h2
      exact h2.symm
    subst ho
    have hp := tryRanges_preserves p f m.power_ranges oh.beginCore
    rw [hr] at hp
    dsimp only at hp
    refine ⟨?_, rfl⟩
    simp [mview, SolarOverhead.rollbackCore, hp.1, hp.2.1, hp.2.2.1,
      SolarOverhead.beginCore]
  · cases h

theorem checkTimerBlock_preserves (d : S2RMDelegate) (now : ℚ) :
    (ombcCheckTimerBlock d now).2.ombc_next_operation_mode =
      d.ombc_next_operation_mode ∧
    (ombcCheckTimerBlock d now).2.power_claim = d.power_claim := by
  unfold ombcCheckTimerBlock
  repeat' split
  all_goals exact ⟨rfl, rfl⟩

theorem assignLoop_success_next (d : S2RMDelegate) (now : ℚ) (forcedId : ℕ)
    (opm : OMBCOperationMode) (rest : List OMBCOperationMode)
    (oh oh' : SolarOverhead)
    (hX : tryOperationMode oh opm (d.consumer_type == ConsumerType.Primary)
      (opm.id == forcedId) = (true, oh')) :
    (assignLoop d now forcedId (opm :: rest) oh).1.ombc_next_operation_mode =
      some opm := by
  unfold assignLoop
  dsimp only
  rw [hX]
  dsimp only
  split_ifs
  · rcases hpc : d.power_claim with _ | old
    · dsimp only
      simpa using (checkTimerBlock_preserves _ now).1
    · dsimp only
      split_ifs
      · simpa using (checkTimerBlock_preserves _ now).1
      · simpa using (checkTimerBlock_preserves _ now).1
  · simpa using (checkTimerBlock_preserves _ now).1

theorem assignLoop_first_claimable (d : S2RMDelegate) (now : ℚ) (forcedId : ℕ) :
    ∀ (l : List OMBCOperationMode) (oh : SolarOverhead) (hne : l ≠ []),
      (l.getLast hne).id = forcedId →
      (∀ m ∈ l.dropLast, m.id ≠ forcedId) →
      oh.transaction_running = false →
      (assignLoop d now forcedId l oh).1.ombc_next_operation_mode =
        some ((l.find? (fun m => modeClaimable oh m
          (d.consumer_type == ConsumerType.Primary))).getD (l.getLast hne)) := by
  intro l
  induction l with
  | nil => intro oh hne; exact absurd rfl hne
  | cons m rest ih =>
    intro oh hne hlast hpre htr
    cases rest with
    | nil =>
      have hid : m.id = forcedId := by simpa using hlast
      have hforce : (m.id == forcedId) = true := by simp [hid]
      rcases hX : tryOperationMode oh m
          (d.consumer_type == ConsumerType.Primary) (m.id == forcedId) with ⟨b, oh'⟩
      have hb : b = true := by
        have h2 := hX
        rw [hforce] at h2
        have h3 := tryOperationMode_force_true oh m
          (d.consumer_type == ConsumerType.Primary)
        rw [h2] at h3
        exact h3
      subst hb
      rw [assignLoop_success_next d now forcedId m [] oh oh' hX]
      cases hpm : modeClaimable oh m (d.consumer_type == ConsumerType.Primary) <;>
        simp [List.find?, hpm]
    | cons r rs =>
      have hmid : m.id ≠ forcedId := hpre m (by simp)
      have hforce : (m.id == forcedId) = false := by simp [hmid]
      rcases hX : tryOperationMode oh m
          (d.consumer_type == ConsumerType.Primary) (m.id == forcedId) with ⟨b, oh'⟩
      have hcl : modeClaimable oh m (d.consumer_type == ConsumerType.Primary) = b := by
        unfold modeClaimable
        rw [← hforce]
        rw [hX]
      cases b
      · have hfail := tryOperationMode_fail oh oh' m _ _ hX
        have e1 : (m :: r :: rs).getLast hne =
            (r :: rs).getLast (by simp : r :: rs ≠ []) :=
          List.getLast_cons _
        have hlast2 : ((r :: rs).getLast (by simp : r :: rs ≠ [])).id = forcedId := by
          rw [← e1]
          exact hlast
        have hpre2 : ∀ mm ∈ (r :: rs).dropLast, mm.id ≠ forcedId := by
          intro mm hmm
          exact hpre mm (by rw [List.dropLast_cons₂]; exact List.mem_cons_of_mem m hmm)
        have hrec := ih oh' (by simp) hlast2 hpre2 hfail.2
        unfold assignLoop
        dsimp only
        rw [hX]
        dsimp only
        have hfind2 : (r :: rs).find? (fun mm => modeClaimable oh' mm
            (d.consumer_type == ConsumerType.Primary)) =
            (r :: rs).find? (fun mm => modeClaimable oh mm
            (d.consumer_type == ConsumerType.Primary)) := by
          congr 1
          funext mm
          exact modeClaimable_view oh' oh mm _ hfail.1
        have hskip : (m :: r :: rs).find? (fun mm => modeClaimable oh mm
            (d.consumer_type == ConsumerType.Primary)) =
            (r :: rs).find? (fun mm => modeClaimable oh mm
            (d.consumer_type == ConsumerType.Primary)) :=
          List.find?_cons_of_neg _ (by simp [hcl])
        rw [hrec, hfind2, hskip, e1]
      · rw [assignLoop_success_next d now forcedId m (r :: rs) oh oh' hX]
        have hskip : (m :: r :: rs).find? (fun mm => modeClaimable oh mm
            (d.consumer_type == ConsumerType.Primary)) = some m :=
          List.find?_cons_of_pos _ (by simpa using hcl)
        rw [hskip]
        simp

/-- C1: for an OMBC session with a stored system description and a known
active operation mode, self_assign proposes the first mode, in the stored
(descending-power) order, among those reachable one hop from the active
mode or equal to it, whose power ranges can all be claimed from the ledger
without force; if no such mode exists the last (cheapest) eligible mode is
proposed, its ranges claimed with force = true, which always succeeds. The
find?/getD expression captures exactly that: the first claimable eligible
mode if any, else the last eligible one. -/
theorem ombc_self_assign_picks_first_claimable
    (d : S2RMDelegate) (now : ℚ) (oh : SolarOverhead)
    (sd : OMBCSystemDescription) (am : OMBCOperationMode)
    (hsd : d.ombc_system_description = some sd)
    (ham : d.ombc_active_operation_mode = some am)
    (hctrl : d.active_control_type = some CtrlType.ombc)
    (htr : oh.transaction_running = false)
    (hmem : am ∈ sd.operation_modes)
    (hnodup : (sd.operation_modes.map (fun m => m.id)).Nodup) :
    (sd.operation_modes.filter (ombcCanTransition sd am)) ≠ [] ∧
    (selfAssignOverhead d now oh).1.ombc_next_operation_mode =
      some (((sd.operation_modes.filter (ombcCanTransition sd am)).find?
          (fun m => modeClaimable oh m
            (d.consumer_type == ConsumerType.Primary))).getD
        (((sd.operation_modes.filter (ombcCanTransition sd am)).getLast?).getD am)) := by
  have hself : ombcCanTransition sd am am = true := by
    unfold ombcCanTransition
    simp
  have hselfmem : am ∈ sd.operation_modes.filter (ombcCanTransition sd am) :=
    List.mem_filter.mpr ⟨hmem, hself⟩
  have hne : sd.operation_modes.filter (ombcCanTransition sd am) ≠ [] :=
    List.ne_nil_of_mem hselfmem
  refine ⟨hne, ?_⟩
  have hglast : (sd.operation_modes.filter (ombcCanTransition sd am)).getLast? =
      some ((sd.operation_modes.filter (ombcCanTransition sd am)).getLast hne) :=
    List.getLast?_eq_getLast _ hne
  have hidnodup : ((sd.operation_modes.filter (ombcCanTransition sd am)).map
      (fun m => m.id)).Nodup :=
    hnodup.sublist (List.Sublist.map _ (List.filter_sublist _))
  have hpre : ∀ m ∈ (sd.operation_modes.filter (ombcCanTransition sd am)).dropLast,
      m.id ≠ ((sd.operation_modes.filter (ombcCanTransition sd am)).getLast hne).id := by
    intro m hm
    have hsplit := List.dropLast_append_getLast hne
    have h2 : (((sd.operation_modes.filter (ombcCanTransition sd am)).dropLast).map
        (fun mm => mm.id) ++
        [((sd.operation_modes.filter (ombcCanTransition sd am)).getLast hne).id]).Nodup := by
      have hmapp : (((sd.operation_modes.filter (ombcCanTransition sd am)).dropLast).map
          (fun mm => mm.id)) ++
          [((sd.operation_modes.filter (ombcCanTransition sd am)).getLast hne).id] =
          (((sd.operation_modes.filter (ombcCanTransition sd am)).dropLast) ++
            [(sd.operation_modes.filter (ombcCanTransition sd am)).getLast hne]).map
            (fun mm => mm.id) := by
        simp
      rw [hmapp, hsplit]
      exact hidnodup
    have hdj := (List.nodup_append.mp h2).2.2
    intro heq
    exact hdj (List.mem_map_of_mem _ hm) (by simp [heq])
  have hloop := assignLoop_first_claimable
    { d with
      power_claim := none, active_control_type := some CtrlType.ombc,
      ombc_system_description := some sd, ombc_active_operation_mode := some am } now
    ((sd.operation_modes.filter (ombcCanTransition sd am)).getLast hne).id
    (sd.operation_modes.filter (ombcCanTransition sd am)) oh hne rfl hpre htr
  unfold selfAssignOverhead
  dsimp only
  rw [hctrl]
  rw [if_pos (by decide)]
  unfold ombcSelfAssign
  dsimp only
  rw [hsd]
  dsimp only
  rw [ham]
  dsimp only
  rw [hglast]
  dsimp only
  rw [if_neg (by simp [htr])]
  dsimp only [Option.getD]
  exact hloop

/-- Expensive (500 W) operation mode for the C1 scenario. -/
def c1hi : OMBCOperationMode := ⟨1, [⟨Commodity.cl1, 0, 500⟩]⟩

/-- Cheap (off) operation mode for the C1 scenario: 0 W. -/
def c1lo : OMBCOperationMode := ⟨2, [⟨Commodity.cl1, 0, 0⟩]⟩

/-- System description for the C1 scenario: two modes, mutual transitions,
no blocking timers. -/
def c1sd : OMBCSystemDescription :=
  ⟨21, [c1hi, c1lo],
   [⟨1, 2, [], []⟩, ⟨2, 1, [], []⟩],
   []⟩

/-- Session state for the C1 scenario: OMBC control active, active mode hi. -/
def c1d : S2RMDelegate :=
  { initialized := true
    active_control_type := some CtrlType.ombc
    consumer_type := ConsumerType.Secondary
    ombc_system_description := some c1sd
    ombc_active_operation_mode := some c1hi }

/-- Ledger for the C1 scenario: 600 W of L1 surplus, so the expensive mode
is claimable without force. -/
def c1oh : SolarOverhead :=
  mkSolarOverhead 600 0 0 0 0 0 4000 4000 4000 SystemType.GridConnected1Phase

theorem ombc_self_assign_picks_first_claimable_witness :
    (c1sd.operation_modes.filter (ombcCanTransition c1sd c1hi)) ≠ [] ∧
    (selfAssignOverhead c1d 0 c1oh).1.ombc_next_operation_mode =
      some (((c1sd.operation_modes.filter (ombcCanTransition c1sd c1hi)).find?
          (fun m => modeClaimable c1oh m
            (c1d.consumer_type == ConsumerType.Primary))).getD
        (((c1sd.operation_modes.filter (ombcCanTransition c1sd c1hi)).getLast?).getD c1hi)) :=
  ombc_self_assign_picks_first_claimable c1d 0 c1oh c1sd c1hi rfl rfl rfl rfl
    (by decide) (by decide)


/-- Source s2python ReceptionStatusValues, restricted to the values the
delegate emits. -/
inductive RSV
  | ok
  | temporaryError
  | permanentError
  | invalidContent
deriving DecidableEq, Repr

/-- Subject of an outbound ReceptionStatus: _s2_send_reception_message
accepts either a parsed message, whose message_id it extracts, or a bare
string; the rejection branch of _s2_on_rm_details passes the literal text
of its complaint as the subject. -/
inductive Subject
  | msg (id : ℕ)
  | text (s : String)
deriving DecidableEq, Repr

/-- Observable sends of the delegate while it handles one inbound message:
reception statuses (status, subject, diagnostic label), the handshake
response and control-type selections. dbus and FAKE_BMS writes are
external effects outside the session and are not modelled. -/
inductive Outbound
  | reception (status : RSV) (subject : Subject) (info : Option String)
  | handshakeResponse (message_id : ℕ) (selected_protocol_version : String)
  | selectControlType (message_id : ℕ) (ct : CtrlType)
deriving DecidableEq, Repr

/-- Protocol version constant the source imports from s2python.version.
Its concrete value never matters here: only membership tests against it
are performed. -/
def S2_VERSION : String := "0.0.2-beta"

/-- Parsed inbound S2 message: one constructor per message_type branch of
_s2_on_message_handler, with unknown covering the trailing else (messages
lacking a message_type key are dropped silently and not modelled). -/
inductive S2Msg
  | handshake (message_id : ℕ) (supported_protocol_versions : List String)
  | resourceManagerDetails (details : RMDetails)
  | ombcSystemDescription (sd : OMBCSystemDescription)
  | ombcStatus (message_id : ℕ) (active_operation_mode_id : ℕ)
  | powerMeasurement (message_id : ℕ) (values : List (Commodity × ℚ))
      (measurement_timestamp : ℚ)
  | receptionStatus (message_id : ℕ) (subject_message_id : ℕ) (status : RSV)
  | unknown (message_id : ℕ)
deriving DecidableEq, Repr

/-- The wire message_id the handler reads out of the raw json dict. -/
def S2Msg.messageId : S2Msg → ℕ
  | .handshake mid _ => mid
  | .resourceManagerDetails m => m.message_id
  | .ombcSystemDescription m => m.message_id
  | .ombcStatus mid _ => mid
  | .powerMeasurement mid _ _ => mid
  | .receptionStatus mid _ _ => mid
  | .unknown mid => mid

/-- The admission test on the raw message_type field. -/
def S2Msg.isHandshake : S2Msg → Bool
  | .handshake _ _ => true
  | _ => false

/-- Source _s2_on_handhsake_message: accept when our protocol version is
among the offered ones, sending OK plus a HandshakeResponse, else reject
with INVALID_CONTENT. fresh stands for the uuid4 the source draws for the
response id. Note that no delegate state records the handshake. -/
def onHandshake (d : S2RMDelegate) (fresh : ℕ) (mid : ℕ)
    (versions : List String) : S2RMDelegate × List Outbound :=
  if S2_VERSION ∈ versions then
    (d, [.reception .ok (.msg mid) none, .handshakeResponse fresh S2_VERSION])
  else
    (d, [.reception .invalidContent (.msg mid) none])

/-- Source _s2_on_rm_details: the details are stored first, before any
validation; then the control type is negotiated. fresh stands for the
uuid4 message id of the SelectControlType message, whose reply callback is
registered in reply_handlers (active_control_type is only set once the
peer acknowledges, see onReceptionStatus). -/
def onRmDetails (d : S2RMDelegate) (fresh : ℕ) (m : RMDetails) :
    S2RMDelegate × List Outbound :=
  let d1 := { d with rm_details := some m }
  if m.available_control_types.length = 0 then
    (d1, [.reception .temporaryError (.msg m.message_id)
      (some "No ControlType provided.")])
  else if m.available_control_types.length = 1 ∧
      CtrlType.notControllable ∈ m.available_control_types then
    ({ d1 with
       reply_handlers := d1.reply_handlers ++ [(fresh, CallbackKind.noctrl)] },
     [.reception .ok (.msg m.message_id) none,
      .selectControlType fresh CtrlType.notControllable])
  else if CtrlType.ombc ∈ m.available_control_types then
    ({ d1 with
       reply_handlers := d1.reply_handlers ++ [(fresh, CallbackKind.ombcSel)] },
     [.reception .ok (.msg m.message_id) none,
      .selectControlType fresh CtrlType.ombc])
  else
    (d1, [.reception .ok (.msg m.message_id) none,
      .reception .permanentError (.text "No supported ControlType offered.")
        none])

/-- Sort key of _s2_on_ombc_system_description: the sum of the upper range
ends of an operation mode. -/
def opmSumKey (m : OMBCOperationMode) : ℚ :=
  (m.power_ranges.map (fun r => r.end_of_range)).sum

/-- Source _s2_on_ombc_system_description: stable-sort the operation modes
most expensive first (Python list.sort with reverse is stable, as is
mergeSort), store the description and acknowledge. -/
def onOmbcSD (d : S2RMDelegate) (m : OMBCSystemDescription) :
    S2RMDelegate × List Outbound :=
  let sorted := { m with operation_modes :=
    m.operation_modes.mergeSort (fun a b => decide (opmSumKey b ≤ opmSumKey a)) }
  ({ d with ombc_system_description := some sorted },
   [.reception .ok (.msg m.message_id) none])

/-- Source _s2_on_ombc_status: look the reported id up in the stored
system description (an AttributeError when none is stored), adopt the
found mode, take over EMS control when its first power range can consume
power (an IndexError when the mode has no range) and acknowledge; an
unknown id is answered with TEMPORARY_ERROR. -/
def onOmbcStatus (d : S2RMDelegate) (mid : ℕ) (opmId : ℕ) :
    Except String (S2RMDelegate × List Outbound) :=
  match d.ombc_system_description with
  | none => .error "AttributeError: ombc_system_description is None"
  | some sd =>
    match sd.operation_modes.find? (fun opm => opm.id == opmId) with
    | none => .ok (d, [.reception .temporaryError (.msg mid)
        (some ("Unknown operationmode-id: " ++ toString opmId))])
    | some opm =>
      match opm.power_ranges with
      | [] => .error "IndexError: power_ranges is empty"
      | r :: _ =>
        let d1 := { d with ombc_active_operation_mode := some opm }
        let d2 := if r.end_of_range > 0 then
            { d1 with is_active_ems_control := true } else d1
        .ok (d2, [.reception .ok (.msg mid) none])

/-- Source increase_counter helper of _s2_on_power_measurement: the first
report of a phase only primes power and timestamp; later reports
integrate the previously reported power over the elapsed time into the
counter, in kWh. -/
def increaseCounter (d : S2RMDelegate) (ph : Phase) (value ts : ℚ) :
    S2RMDelegate :=
  if d.current_timestamps.getP ph = 0 then
    { d with
      current_power := d.current_power.setP ph value
      current_timestamps := d.current_timestamps.setP ph ts }
  else
    let duration := ts - d.current_timestamps.getP ph
    let consumption := d.current_power.getP ph * duration / 3600 / 1000
    { d with
      current_counter := d.current_counter.setP ph
        (d.current_counter.getP ph + consumption)
      current_power := d.current_power.setP ph value
      current_timestamps := d.current_timestamps.setP ph ts }

/-- One PowerValue of a PowerMeasurement: the three-phase symmetric
commodity is split into thirds over the phases, a per-phase commodity
updates its phase. -/
def applyPowerValue (ts : ℚ) (d : S2RMDelegate) (pv : Commodity × ℚ) :
    S2RMDelegate :=
  match pv.1 with
  | Commodity.sym =>
    [Phase.one, Phase.two, Phase.three].foldl
      (fun acc ph => increaseCounter acc ph (pv.2 / 3) ts) d
  | Commodity.cl1 => increaseCounter d Phase.one pv.2 ts
  | Commodity.cl2 => increaseCounter d Phase.two pv.2 ts
  | Commodity.cl3 => increaseCounter d Phase.three pv.2 ts

/-- Source _s2_on_power_measurement: reports are integrated only while the
consumer is actively EMS-controlled, otherwise the tracked power is
zeroed; either way the report is acknowledged. The running total feeds
only the FAKE_BMS dbus write and is not session state. -/
def onPowerMeasurement (d : S2RMDelegate) (mid : ℕ)
    (values : List (Commodity × ℚ)) (ts : ℚ) :
    S2RMDelegate × List Outbound :=
  if d.is_active_ems_control then
    (values.foldl (applyPowerValue ts) d, [.reception .ok (.msg mid) none])
  else
    ({ d with current_power := {} }, [.reception .ok (.msg mid) none])

/-- Source ReceptionStatus branch of the message handler: when a reply
callback is registered for the subject id it runs once and is removed.
Both callback kinds the source registers set active_control_type on an OK
reply and do nothing otherwise. -/
def onReceptionStatus (d : S2RMDelegate) (subject : ℕ) (status : RSV) :
    S2RMDelegate × List Outbound :=
  match d.reply_handlers.find? (fun kv => kv.1 == subject) with
  | none => (d, [])
  | some kv =>
    let d1 := { d with
      reply_handlers := d.reply_handlers.eraseP (fun e => e.1 == subject) }
    if status = RSV.ok then
      ({ d1 with active_control_type := some (match kv.2 with
        | CallbackKind.noctrl => CtrlType.notControllable
        | CallbackKind.ombcSel => CtrlType.ombc) }, [])
    else (d1, [])

/-- Source _s2_on_message_handler dispatch: Handshake is always admitted;
every other message type is admitted only once the delegate is
initialized, a flag begin() sets as soon as the dbus connection is
established, before any S2 handshake takes place. A message failing the
gate is rejected with TEMPORARY_ERROR referencing its message id and the
state stays untouched. fresh stands for the uuid4 drawn for any outbound
message needing an id. -/
def onMessage (d : S2RMDelegate) (fresh : ℕ) (msg : S2Msg) :
    Except String (S2RMDelegate × List Outbound) :=
  if msg.isHandshake || d.initialized then
    match msg with
    | .handshake mid versions => .ok (onHandshake d fresh mid versions)
    | .resourceManagerDetails m => .ok (onRmDetails d fresh m)
    | .ombcSystemDescription m => .ok (onOmbcSD d m)
    | .ombcStatus mid opmId => onOmbcStatus d mid opmId
    | .powerMeasurement mid values ts =>
      .ok (onPowerMeasurement d mid values ts)
    | .receptionStatus _ subject status =>
      .ok (onReceptionStatus d subject status)
    | .unknown mid => .ok (d, [.reception .permanentError (.msg mid)
        (some "MessageType not yet implemented in EMS.")])
  else
    .ok (d, [.reception .temporaryError (.msg msg.messageId)
      (some "Connection not yet established.")])

/-- Details offered by the peer in the C8 scenario: OMBC control on offer,
no power measurements. -/
def c8rm : RMDetails := ⟨77, [CtrlType.ombc], []⟩

/-- Session state of the C8 scenario: the dbus connection is established
(begin() has set initialized) but no S2 message, in particular no
Handshake, has ever been received - every other field still holds its
construction-time default. -/
def c8d : S2RMDelegate := { initialized := true }

/-- Session state after the C8 scenario message: the details are stored
and the OMBC selection reply handler is registered. -/
def c8dAfter : S2RMDelegate :=
  { c8d with
    rm_details := some c8rm
    reply_handlers := [(99, CallbackKind.ombcSel)] }

/-- C8 counterexample: a session that has never received a Handshake but
whose dbus connection is up (initialized = true, which begin() sets before
any handshake) fully processes an inbound ResourceManagerDetails: the
details are stored, the reply is OK plus a SelectControlType, and no
TEMPORARY_ERROR is emitted - the admission gate tests the connection flag,
not handshake acceptance. -/
theorem handshake_gate_counterexample :
    onMessage c8d 99 (S2Msg.resourceManagerDetails c8rm) =
      Except.ok (c8dAfter,
        [Outbound.reception RSV.ok (Subject.msg 77) none,
         Outbound.selectControlType 99 CtrlType.ombc]) ∧
    c8dAfter ≠ c8d := by
  decide

/-- C8 (amended): the admission gate of _s2_on_message_handler is the
connection flag initialized, not handshake acceptance: whenever the
delegate is uninitialized, every non-Handshake inbound message is answered
with a TEMPORARY_ERROR reception status referencing the message's
message_id and the session state is untouched. (Once begin() has set
initialized, non-Handshake messages are processed even though no handshake
ever happened - see handshake_gate_counterexample.) -/
theorem uninitialized_non_handshake_rejected
    (d : S2RMDelegate) (fresh : ℕ) (msg : S2Msg)
    (hinit : d.initialized = false) (hnh : msg.isHandshake = false) :
    onMessage d fresh msg =
      Except.ok (d, [Outbound.reception RSV.temporaryError
        (Subject.msg msg.messageId)
        (some "Connection not yet established.")]) := by
  unfold onMessage
  rw [hnh, hinit]
  rfl

theorem uninitialized_non_handshake_rejected_witness :
    onMessage {} 0 (S2Msg.resourceManagerDetails ⟨5, [], []⟩) =
      Except.ok (({} : S2RMDelegate),
        [Outbound.reception RSV.temporaryError (Subject.msg 5)
          (some "Connection not yet established.")]) :=
  uninitialized_non_handshake_rejected {} 0
    (S2Msg.resourceManagerDetails ⟨5, [], []⟩) rfl rfl


/-- Source S2RMDelegate.pop_powerstats. When the resource manager details
declare no power-measurement types and a previous pop exists, the source
computes duration = (now - self._last_pop_powerstats).total_seconds - the
call parentheses are missing, so duration is the bound method itself, and
the first loop iteration's multiplication power_request.by_phase[1] *
duration raises a TypeError, modelled here as the error value; the caller
_on_timer_track_power catches and logs it, so the estimation path never
produces stats. On the non-estimating paths (no details stored, details
declaring measurement types, or first pop) the current power and counter
are returned, the counter is reset and the pop instant is recorded; the
enclosing current_power-is-not-None check is always true, current_power
being initialized to a PhaseAwareFloat and never cleared. -/
def popPowerstats (d : S2RMDelegate) (now : ℚ) :
    Except String ((PAF × PAF) × S2RMDelegate) :=
  let est : Except String Unit :=
    match d.rm_details with
    | some rd =>
      if rd.provides_power_measurement_types.length = 0 then
        match d.last_pop_powerstats with
        | some _ =>
          Except.error "TypeError: unsupported operand type for *: float and builtin_function_or_method total_seconds"
        | none => Except.ok ()
      else Except.ok ()
    | none => Except.ok ()
  est >>= fun _ =>
    Except.ok ((d.current_power, d.current_counter),
      { d with
        current_counter := {}
        last_pop_powerstats := some now })

/-- Details of the C9 scenario: a resource manager that offers OMBC and
declares no power-measurement types. -/
def c9rm : RMDetails := ⟨31, [CtrlType.ombc], []⟩

/-- Session state of the C9 scenario before the first pop: 200 W granted
on L1, no pop recorded yet. -/
def c9d : S2RMDelegate :=
  { initialized := true
    rm_details := some c9rm
    power_request := some ⟨200, 0, 0, 0⟩ }

/-- C9: the claim says each power-tracking pop after the first returns a
counter estimated from the last power-request times the elapsed time, with
the counter reset afterwards. At this input the first pop at t = 1000
succeeds and records the instant, but the second pop at t = 1030 raises
instead of returning the 200 W x 30 s estimate: pop_powerstats reads
(now - self._last_pop_powerstats).total_seconds without calling it, so the
estimation multiplies a float by a bound method and every pop after the
first on a measurement-less consumer dies with a TypeError, which
_on_timer_track_power swallows. -/
theorem second_pop_estimation_raises :
    popPowerstats c9d 1000 =
      Except.ok ((({} : PAF), ({} : PAF)),
        { c9d with last_pop_powerstats := some 1000 }) ∧
    popPowerstats { c9d with last_pop_powerstats := some 1000 } 1030 =
      Except.error "TypeError: unsupported operand type for *: float and builtin_function_or_method total_seconds" := by
  decide

end Ems

